import Mathlib

/-!
Verification of the Notion webhook agent (`main.py`) against its
natural-language specification.  The Python source is shallowly embedded:
strings are Lean `String`s, Python `str` primitives (`strip`, `split`,
`startswith`, …) are modelled character-list-wise, dictionaries coming from
the remote collaborators are modelled as structures, and HTTP / JSON
failures are modelled with an explicit `PyError` type and `Except`.
Remote collaborators (the Notion document store, the user API, the OpenAI
completion service) are passed in as explicit response data, mirroring
exactly how the code consumes their responses.
-/

namespace NotionAgent

/-! ## Python string primitives -/

/-- Whitespace characters recognised by Python `str.strip()` (ASCII range). -/
def isPySpace (c : Char) : Bool :=
  c = ' ' || c = '\t' || c = '\n' || c = '\r' || c = '\x0b' || c = '\x0c'

/-- Model of Python `str.strip()` on character lists. -/
def pyStripList (l : List Char) : List Char :=
  ((l.dropWhile isPySpace).reverse.dropWhile isPySpace).reverse

/-- Model of Python `str.strip()`. -/
def pyStrip (s : String) : String := ⟨pyStripList s.data⟩

/-- Model of Python `str.startswith(p)`. -/
def pyStarts (s p : String) : Bool := p.data.isPrefixOf s.data

/-- Split a character list at newline characters (Python `str.split`). -/
def splitNlCh : List Char → List (List Char)
  | [] => [[]]
  | c :: r =>
    if c = '\n' then [] :: splitNlCh r
    else
      match splitNlCh r with
      | [] => [[c]]
      | h :: t => (c :: h) :: t

/-- Model of Python `s.split(chr(10))`. -/
def splitNl (s : String) : List String := (splitNlCh s.data).map String.mk

/-- Join character lists with newline characters (Python `join`). -/
def joinNlCh : List (List Char) → List Char
  | [] => []
  | [a] => a
  | a :: b :: r => a ++ '\n' :: joinNlCh (b :: r)

/-- Model of Python `chr(10).join(lines)`. -/
def joinNl (l : List String) : String := ⟨joinNlCh (l.map String.data)⟩

/-! ## Error model -/

/-- Python exceptions relevant to the program: `urllib.error.HTTPError`
(with its status code), `ValueError`, and any other exception. -/
inductive PyError where
  | http (code : Nat) (msg : String)
  | value (msg : String)
  | other (msg : String)
deriving DecidableEq, Repr

/-- Model of Python `str(e)` as used when an exception is stringified. -/
def pyErrMsg : PyError → String
  | .http code msg => "HTTP Error " ++ toString code ++ ": " ++ msg
  | .value msg => msg
  | .other msg => msg

/-- Decidable equality for `Except`, used to evaluate concrete runs. -/
instance {e a : Type} [DecidableEq e] [DecidableEq a] : DecidableEq (Except e a) := fun x y =>
  match x, y with
  | .ok u, .ok v => if h : u = v then isTrue (by rw [h]) else isFalse (by simp [h])
  | .error u, .error v => if h : u = v then isTrue (by rw [h]) else isFalse (by simp [h])
  | .ok _, .error _ => isFalse (by simp)
  | .error _, .ok _ => isFalse (by simp)

/-! ## Inline rich-text rendering (`_extract_rich_text`, main.py:228-261) -/

/-- One Notion rich-text object: plain text, the four annotation flags and
an optional hyperlink, as read by `_extract_rich_text`. -/
structure RichTextObj where
  plain_text : String := ""
  bold : Bool := false
  italic : Bool := false
  strikethrough : Bool := false
  code : Bool := false
  href : Option String := none
deriving DecidableEq, Repr

/-- Formatting of a single rich-text object inside `_extract_rich_text`:
the annotation wrappers are applied in source order (bold, italic,
strikethrough, code), then the hyperlink wraps the result. -/
def fmtRichTextObj (t : RichTextObj) : String :=
  let c := t.plain_text
  let c := if t.bold then "**" ++ c ++ "**" else c
  let c := if t.italic then "*" ++ c ++ "*" else c
  let c := if t.strikethrough then "~~" ++ c ++ "~~" else c
  let c := if t.code then "`" ++ c ++ "`" else c
  match t.href with
  | some url => "[" ++ c ++ "](" ++ url ++ ")"
  | none => c

/-- Model of `_extract_rich_text`: formats every span and concatenates with
no separator. -/
def extractRichText : List RichTextObj → String
  | [] => ""
  | t :: r => fmtRichTextObj t ++ extractRichText r

/-- A rich-text span with all four style flags set and a hyperlink. -/
def allStyledSpan (content url : String) : RichTextObj :=
  { plain_text := content, bold := true, italic := true,
    strikethrough := true, code := true, href := some url }

/-- An unstyled rich-text span (all flags clear, no hyperlink). -/
def plainSpan (content : String) : RichTextObj := { plain_text := content }

/-! ## Users and comments (`get_user`, `_add_block_comments`,
`get_block_comments`, main.py:264-407) -/

/-- The slice of a Notion user-API response body that `get_user` reads:
`name` (absent modelled as `none`), `type`, and the optional `person`
object with its optional `email`. -/
structure UserData where
  name : Option String := none
  type : Option String := none
  personEmail : Option (Option String) := none
deriving DecidableEq, Repr

/-- The user record `get_user` builds. -/
structure UserInfo where
  name : String
  email : String
  id : String
deriving DecidableEq, Repr

/-- The per-fetch author cache (`user_cache` dictionary). -/
abbrev UserCache := List (String × UserInfo)

/-- Model of `get_user` (main.py:264-326).  The network response for the
user id is passed in as `resp`; both `except` branches of the source
(HTTP error and any other error) produce the same fallback record, so any
`PyError` yields the sentinel identity. -/
def getUser (resp : Except PyError UserData) (uid : String) (cache : UserCache) :
    UserInfo × UserCache :=
  match cache.lookup uid with
  | some info => (info, cache)
  | none =>
    let info : UserInfo :=
      match resp with
      | .ok ud =>
        { name := ud.name.getD "Unknown User"
          email :=
            match ud.type, ud.personEmail with
            | some t, some e => if t = "person" then e.getD "" else ""
            | _, _ => ""
          id := uid }
      | .error _ => { name := "Unknown User", email := "", id := uid }
    (info, (uid, info) :: cache)

/-- One comment object as consumed by `_add_block_comments`:
`id`, `rich_text`, `created_by.id` and `created_time`. -/
structure NComment where
  id : String := ""
  rich_text : List RichTextObj := []
  created_by : String := ""
  created_time : String := ""
deriving DecidableEq, Repr

/-- One page of the paginated comments listing (`results` / `has_more`). -/
structure CommentPage where
  results : List NComment := []
  has_more : Bool := false
deriving DecidableEq, Repr

/-- Model of the `get_block_comments` pagination loop (main.py:364-407).
The store's successive responses are consumed in order; an HTTP 404 or 403
breaks out of the loop returning the comments accumulated so far, any other
HTTP error is re-raised, and non-HTTP errors propagate (the source catches
only `urllib.error.HTTPError`). -/
def getBlockComments : List (Except PyError CommentPage) → List NComment →
    Except PyError (List NComment)
  | [], acc => .ok acc
  | r :: rest, acc =>
    match r with
    | .error (.http code msg) =>
      if code = 404 ∨ code = 403 then .ok acc else .error (.http code msg)
    | .error e => .error e
    | .ok page =>
      let acc := acc ++ page.results
      if page.has_more then getBlockComments rest acc else .ok acc

/-- The comment lines appended by `_add_block_comments` (main.py:341-361)
for a list of fetched comments, threading the author cache.  `uresp` gives
the user-API response for each author id. -/
def commentLines (uresp : String → Except PyError UserData) :
    List NComment → UserCache → List String × UserCache
  | [], cache => ([], cache)
  | c :: rest, cache =>
    let text := extractRichText c.rich_text
    let uid := c.created_by
    if uid ≠ "" then
      let r := getUser (uresp uid) uid cache
      let emailPart := if r.1.email ≠ "" then " \"" ++ r.1.email ++ "\"" else ""
      let header := "**Comment by \"" ++ r.1.name ++ "\"" ++ emailPart ++ " (" ++
        uid ++ ") at " ++ c.created_time ++ ":**"
      let t := commentLines uresp rest r.2
      (["comment block id: " ++ c.id, header, text] ++ t.1, t.2)
    else
      let header := "**Comment by Unknown User at " ++ c.created_time ++ ":**"
      let t := commentLines uresp rest cache
      (["comment block id: " ++ c.id, header, text] ++ t.1, t.2)

/-! ## Block rendering (`notion_to_markdown`, main.py:148-225) -/

/-- The block kinds `notion_to_markdown` dispatches on; `other` stands for
any unrecognized `type` string. -/
inductive BKind where
  | paragraph
  | heading (level : Nat)
  | bulleted
  | numbered
  | code
  | quote
  | other (name : String)
deriving DecidableEq, Repr

/-- One Notion block as consumed by `notion_to_markdown`: its `id`, its
`type`, the `rich_text` array of its typed payload (an absent payload or
an absent `rich_text` field reads as the empty list, exactly as the
source's `.get(…, {}).get('rich_text', [])` chain does), and the code
block's `language` field. -/
structure NBlock where
  id : String := ""
  kind : BKind := .paragraph
  rich_text : List RichTextObj := []
  language : String := ""
deriving DecidableEq, Repr

/-- Rendered inline content of a block. -/
def contentOf (b : NBlock) : String := extractRichText b.rich_text

/-- Whether `notion_to_markdown` renders the block: its kind must be one of
the six recognised kinds and its rendered inline text must be non-empty
after stripping. -/
def renderedB (b : NBlock) : Bool :=
  (match b.kind with | .other _ => false | _ => true) && !(pyStrip (contentOf b) == "")

/-- A string of `n` repeated hash marks (Python `chr(35) * level`). -/
def hashes (n : Nat) : String := ⟨List.replicate n '#'⟩

/-- The kind-specific lines `notion_to_markdown` emits for one rendered
block, before the comment lines and the blank separator. -/
def hdrLines (b : NBlock) : List String :=
  match b.kind with
  | .paragraph => ["block_id: " ++ b.id, contentOf b]
  | .heading n => ["block_id: " ++ b.id, hashes n ++ " " ++ contentOf b]
  | .bulleted => ["block_id: " ++ b.id, "- " ++ contentOf b]
  | .numbered => ["block_id: " ++ b.id, "1. " ++ contentOf b]
  | .code => ["block_id: " ++ b.id, "```" ++ b.language, contentOf b, "```"]
  | .quote => ["block_id: " ++ b.id, "> " ++ contentOf b]
  | .other _ => []

/-- Model of the `notion_to_markdown` loop (main.py:162-224) producing the
`markdown_lines` list.  `cresp` is the comment store: the stream of
paginated responses for each block id; `uresp` the user store.  A rendered
block contributes its kind-specific lines, then its comment lines, then a
blank separator; a skipped block contributes nothing and fetches nothing. -/
def notionToMarkdownLines (cresp : String → List (Except PyError CommentPage))
    (uresp : String → Except PyError UserData) :
    List NBlock → UserCache → Except PyError (List String × UserCache)
  | [], cache => .ok ([], cache)
  | b :: rest, cache =>
    if renderedB b then
      match getBlockComments (cresp b.id) [] with
      | .error e => .error e
      | .ok cs =>
        let cl := commentLines uresp cs cache
        match notionToMarkdownLines cresp uresp rest cl.2 with
        | .error e => .error e
        | .ok t => .ok (hdrLines b ++ cl.1 ++ [""] ++ t.1, t.2)
    else notionToMarkdownLines cresp uresp rest cache

/-- Model of `notion_to_markdown` (main.py:148-225): joins the emitted
lines with newlines and strips the result. -/
def notionToMarkdown (cresp : String → List (Except PyError CommentPage))
    (uresp : String → Except PyError UserData) (blocks : List NBlock)
    (cache : UserCache) : Except PyError String :=
  match notionToMarkdownLines cresp uresp blocks cache with
  | .error e => .error e
  | .ok t => .ok (pyStrip (joinNl t.1))

/-- The lines `notion_to_markdown` emits when no block has any comment
(every comment fetch returns no pages, hence the empty comment list). -/
def pureLines : List NBlock → List String
  | [] => []
  | b :: rest => (if renderedB b then hdrLines b ++ [""] else []) ++ pureLines rest

/-- The markdown text `notion_to_markdown` produces when no block has any
comment. -/
def renderMarkdown (blocks : List NBlock) : String := pyStrip (joinNl (pureLines blocks))

/-! ## Markdown parsing (`markdown_to_notion`, main.py:449-550) -/

/-- One block object created by `markdown_to_notion`, determined by its
`type`, the single literal text run it carries and, for code blocks, the
language tag. -/
structure OutBlock where
  kind : BKind
  content : String
  language : String := ""
deriving DecidableEq, Repr

/-- Model of the tuple test `line.startswith(("1. ", "2. ", …, "9. "))`. -/
def isNumberedLine (s : String) : Bool :=
  match s.data with
  | c :: '.' :: ' ' :: _ => decide ('1' ≤ c) && decide (c ≤ '9')
  | _ => false

/-- Fence test used by the code-capture inner loop:
`lines[i].strip().startswith` of three backticks. -/
def isFenceLine (s : String) : Bool := pyStarts (pyStrip s) "```"

/-- Fuel-driven model of the `markdown_to_notion` line loop
(main.py:463-548).  Each iteration consumes at least one line, so fuel
equal to the number of lines suffices; the fuel makes the definition
structurally recursive and hence computable by the kernel.  The branch
order matches the source: blank skip, headers, code fences (capturing
until the next fence line, which is consumed), bullets, numbered items,
quotes, paragraphs. -/
def mdGoF : Nat → List String → List OutBlock
  | 0, _ => []
  | _, [] => []
  | fuel + 1, l :: ls =>
    let line := pyStrip l
    if line = "" then mdGoF fuel ls
    else if pyStarts line "#" then
      let level := (line.data.takeWhile (· == '#')).length
      let content := pyStrip ⟨line.data.dropWhile (fun c => c == '#' || c == ' ')⟩
      ⟨.heading level, content, ""⟩ :: mdGoF fuel ls
    else if pyStarts line "```" then
      let language := pyStrip ⟨line.data.drop 3⟩
      let codeLines := ls.takeWhile (fun s => !isFenceLine s)
      let rest := (ls.dropWhile (fun s => !isFenceLine s)).drop 1
      ⟨.code, joinNl codeLines, language⟩ :: mdGoF fuel rest
    else if pyStarts line "- " then
      ⟨.bulleted, pyStrip ⟨line.data.drop 2⟩, ""⟩ :: mdGoF fuel ls
    else if isNumberedLine line then
      ⟨.numbered, pyStrip ⟨line.data.drop 3⟩, ""⟩ :: mdGoF fuel ls
    else if pyStarts line "> " then
      ⟨.quote, pyStrip ⟨line.data.drop 2⟩, ""⟩ :: mdGoF fuel ls
    else
      ⟨.paragraph, line, ""⟩ :: mdGoF fuel ls

/-- The line loop run with exactly as much fuel as there are lines. -/
def mdFromLines (lines : List String) : List OutBlock := mdGoF lines.length lines

/-- Model of `markdown_to_notion` (main.py:449-550). -/
def markdownToNotion (markdown : String) : List OutBlock :=
  mdFromLines (splitNl markdown)

/-- The (kind, text content) pairs of a parsed block sequence. -/
def toPairs (l : List OutBlock) : List (BKind × String) :=
  l.map (fun o => (o.kind, o.content))

/-- The element ids announced by `block_id:` marker lines among a list of
emitted lines. -/
def blockIdMarkers (L : List String) : List String :=
  L.filterMap (fun l => if pyStarts l "block_id: " then some ⟨l.data.drop 10⟩ else none)

/-- The annotation ids announced by `comment block id:` marker lines. -/
def commentIdMarkers (L : List String) : List String :=
  L.filterMap (fun l =>
    if pyStarts l "comment block id: " then some ⟨l.data.drop 18⟩ else none)

/-- Whether `needle` occurs as a contiguous substring of `hay`. -/
def isSubstr (needle hay : String) : Bool :=
  (List.range (hay.data.length + 1)).any (fun i => needle.data.isPrefixOf (hay.data.drop i))

/-- An inline span with no styling flags and no hyperlink. -/
def plainRun (t : RichTextObj) : Bool :=
  !t.bold && !t.italic && !t.strikethrough && !t.code && t.href == none

/-- Concatenated plain text of a span list. -/
def concatTexts : List RichTextObj → String
  | [] => ""
  | t :: r => t.plain_text ++ concatTexts r

/-- The plain-text content of a block, spans concatenated unstyled. -/
def plainTextOf (b : NBlock) : String := concatTexts b.rich_text

/-- Conditions under which one block survives the render-parse round trip
with its content intact: unstyled spans; inline content non-empty, already
stripped, newline-free; a well-formed id-marker line; and per kind the
conditions that make the rendered line re-parse as the same kind (a
paragraph must not start with any of the other line markers, a heading
needs level at least one and content not starting with a hash, a code
block needs a stripped newline-free language tag and content that is not a
fence line). -/
def goodBlockB (b : NBlock) : Bool :=
  let c := contentOf b
  b.rich_text.all plainRun &&
  decide (pyStrip c = c) && decide (c ≠ "") && decide (Char.ofNat 10 ∉ c.data) &&
  decide (pyStrip ("block_id: " ++ b.id) = "block_id: " ++ b.id) &&
  decide (Char.ofNat 10 ∉ b.id.data) &&
  (match b.kind with
   | .paragraph =>
      !(pyStarts c "#") && !(pyStarts c "```") && !(pyStarts c "- ") &&
      !(isNumberedLine c) && !(pyStarts c "> ")
   | .heading n => decide (1 ≤ n) && decide (c.data.head? ≠ some '#')
   | .bulleted => true
   | .numbered => true
   | .quote => true
   | .code =>
      decide (pyStrip b.language = b.language) &&
      decide (Char.ofNat 10 ∉ b.language.data) && !(pyStarts c "```")
   | .other _ => false)

/-- The two parsed blocks that one rendered block yields back: the
id-marker line re-parsed as a paragraph, then the element itself. -/
def outBlocksOf (b : NBlock) : List OutBlock :=
  [⟨.paragraph, "block_id: " ++ b.id, ""⟩,
   ⟨b.kind, contentOf b, if b.kind = .code then b.language else ""⟩]

/-! ## Comment writing (`notion_comment`, main.py:553-618) -/

/-- The slice of the comment-creation response `notion_comment` reads. -/
structure CreatedComment where
  id : Option String := none
deriving DecidableEq, Repr

/-- The outcome dictionary `notion_comment` returns. -/
structure CommentOutcome where
  success : Bool
  comment_id : Option String := none
  error : Option String := none
deriving DecidableEq, Repr

/-- Model of `notion_comment` (main.py:553-618).  A missing token and an
empty block conversion raise `ValueError` (outside the `try`), while the
HTTP request itself is guarded: an `HTTPError` or any other failure from
the store becomes a `success := false` outcome. -/
def notionComment (token : Option String) (storeResp : Except PyError CreatedComment)
    (block_id comment_markdown commenter_name : String) :
    Except PyError CommentOutcome :=
  match token with
  | none => .error (.value "NOTION_TOKEN environment variable is required")
  | some _ =>
    if markdownToNotion comment_markdown = [] then
      .error (.value "Comment markdown could not be converted to Notion blocks")
    else
      match storeResp with
      | .ok r => .ok { success := true, comment_id := r.id }
      | .error (.http code body) =>
        .ok { success := false, error := some ("HTTP " ++ toString code ++ ": " ++ body) }
      | .error e => .ok { success := false, error := some (pyErrMsg e) }

/-! ## Completion orchestration (`query_openai`, main.py:621-714) -/

/-- Parsed arguments of one requested `notion_comment` invocation. -/
structure ToolCallArgs where
  block_id : Option String := none
  comment_markdown : Option String := none
deriving DecidableEq, Repr

/-- One tool invocation requested by the completion service. -/
structure ToolCall where
  id : String := ""
  name : String := ""
  args : ToolCallArgs := {}
deriving DecidableEq, Repr

/-- The completion-service message `query_openai` inspects: the optional
text content and the list of requested tool invocations. -/
structure ChatMessage where
  content : Option String := none
  tool_calls : List ToolCall := []
deriving DecidableEq, Repr

/-- A comment-creation that actually succeeded against the store:
(parent block id, markdown body, commenter display name). -/
abbrev WrittenComment := String × String × String

/-- Model of the tool-dispatch loop of `query_openai` (main.py:684-700):
each `notion_comment` invocation is executed against the store; a raised
error aborts the loop, a returned outcome (success or failure) lets the
loop continue.  The accumulated list records the successful creations. -/
def runToolCalls (token : Option String)
    (store : String → String → Except PyError CreatedComment)
    (commenter_name : String) :
    List ToolCall → List WrittenComment → Except PyError (List WrittenComment)
  | [], ws => .ok ws
  | tc :: rest, ws =>
    if tc.name = "notion_comment" then
      match tc.args.comment_markdown with
      | none => .error (.other "AttributeError: NoneType has no attribute split")
      | some md =>
        let bid := tc.args.block_id.getD ""
        match notionComment token (store bid md) bid md commenter_name with
        | .error e => .error e
        | .ok outcome =>
          runToolCalls token store commenter_name rest
            (ws ++ if outcome.success then [(bid, md, commenter_name)] else [])
    else runToolCalls token store commenter_name rest ws

/-- Model of `query_openai` (main.py:621-714).  `resp1` is the initial
completion response and `finalContent` the final-turn reply content (only
consulted on the tool path).  The function returns the text the Python
function returns (`none` models Python `None`) together with the list of
comments successfully persisted.  Every raised error inside the `try` is
wrapped as the generic `OpenAI API error`.  On the tool path the source
persists the final reply as a comment on `page_id` and then falls off the
end of the function without a `return` statement. -/
def queryOpenai (token : Option String)
    (store : String → String → Except PyError CreatedComment)
    (resp1 : ChatMessage) (finalContent : Option String)
    (page_id commenter_name : String) :
    Except PyError (Option String × List WrittenComment) :=
  let body : Except PyError (Option String × List WrittenComment) :=
    if resp1.tool_calls = [] then .ok (resp1.content, [])
    else
      match runToolCalls token store commenter_name resp1.tool_calls [] with
      | .error e => .error e
      | .ok ws =>
        match finalContent with
        | none => .error (.other "AttributeError: NoneType has no attribute split")
        | some fc =>
          match notionComment token (store page_id fc) page_id fc commenter_name with
          | .error e => .error e
          | .ok outcome =>
            .ok (none, ws ++ if outcome.success then [(page_id, fc, commenter_name)] else [])
  match body with
  | .ok v => .ok v
  | .error e => .error (.other ("OpenAI API error: " ++ pyErrMsg e))

/-! ## Document fetch (`get_page`, main.py:79-145) -/

/-- One page of the paginated block listing (`results` / `has_more`). -/
structure BlockPage where
  results : List NBlock := []
  has_more : Bool := false
deriving DecidableEq, Repr

/-- Model of the block-pagination loop of `get_page` (main.py:114-137):
each response extends the accumulated block list and the loop continues
exactly while the store reports `has_more`. -/
def collectBlocks : List BlockPage → List NBlock
  | [] => []
  | p :: rest => p.results ++ if p.has_more then collectBlocks rest else []

/-- The document record `get_page` returns. -/
structure PageRecord where
  page_id : String
  name : String
  markdown : String
deriving DecidableEq, Repr

/-- Model of `get_page` (main.py:79-145), with the title already extracted
from the metadata response and the paginated block-listing responses given
as `blockPages`. -/
def getPage (page_id title : String) (blockPages : List BlockPage)
    (cresp : String → List (Except PyError CommentPage))
    (uresp : String → Except PyError UserData) : Except PyError PageRecord :=
  match notionToMarkdown cresp uresp (collectBlocks blockPages) [] with
  | .error e => .error e
  | .ok md => .ok { page_id := page_id, name := title, markdown := md }

/-! ## Request coordination (`lambda_handler`, main.py:9-76) -/

/-- The query-string parameters `lambda_handler` reads. -/
structure QueryParams where
  client_token : Option String := none
  prompt_id : Option String := none
  model : Option String := none
deriving DecidableEq, Repr

/-- The parsed `data` object of the trigger body. -/
structure RequestData where
  id : Option String := none
  request_id : Option String := none
deriving DecidableEq, Repr

/-- The trigger event: optional query parameters, and the result of
`json.loads(body).get("data")` (an `Except` failure models a body that is
not valid JSON; `none` models an absent `data` key). -/
structure LambdaEvent where
  queryStringParameters : Option QueryParams := none
  body_data : Except PyError (Option RequestData) := .ok none
deriving Repr

/-- Python truthiness of an optional string. -/
def truthy : Option String → Bool
  | none => false
  | some s => !(s == "")

/-- The JSON envelope `lambda_handler` serializes: the success dictionary
`openai_response` / `request_id`, or the error dictionary `error` /
`event`. -/
inductive LambdaOutput where
  | success (openai_response : Option String) (request_id : Option String)
  | err (msg : String) (event : LambdaEvent)
deriving Repr

/-- The steps inside the `try` block of `lambda_handler` (main.py:20-73)
after reading the query parameters: token check, `prompt_id` check,
prompt-page fetch, body parse, changed-page fetch, completion call; early
error envelopes are ordinary return values while collaborator failures are
raised (`Except.error`). -/
def handlerSteps (envClientToken : Option String)
    (pages : String → Except PyError PageRecord)
    (qo : String → String → String → String → String → Except PyError (Option String))
    (event : LambdaEvent) (qp : QueryParams) : Except PyError LambdaOutput :=
  if truthy envClientToken &&
      (!(truthy qp.client_token) || !(qp.client_token == envClientToken)) then
    .ok (.err "Invalid client token" event)
  else if !(truthy qp.prompt_id) then
    .ok (.err "Missing prompt_id parameter" event)
  else
    match pages (qp.prompt_id.getD "") with
    | .error e => .error e
    | .ok promptPage =>
      match event.body_data with
      | .error e => .error e
      | .ok none => .error (.other "AttributeError: NoneType has no attribute get")
      | .ok (some rd) =>
        if !(truthy rd.id) then .ok (.err "Missing page ID in request data" event)
        else
          match pages (rd.id.getD "") with
          | .error e => .error e
          | .ok changedPage =>
            match qo promptPage.markdown changedPage.markdown (qp.model.getD "gpt-4o")
                (rd.id.getD "") promptPage.name with
            | .error e => .error e
            | .ok resp => .ok (.success resp rd.request_id)

/-- The body of the `try` block of `lambda_handler`: read the query
parameters (defaulting to the empty dictionary) and run the steps. -/
def lambdaHandlerCore (envClientToken : Option String)
    (pages : String → Except PyError PageRecord)
    (qo : String → String → String → String → String → Except PyError (Option String))
    (event : LambdaEvent) : Except PyError LambdaOutput :=
  let qp := event.queryStringParameters.getD {}
  handlerSteps envClientToken pages qo event qp

/-- Model of `lambda_handler` (main.py:9-76): the catch-all `except`
turns any raised error into the in-band error envelope. -/
def lambdaHandler (envClientToken : Option String)
    (pages : String → Except PyError PageRecord)
    (qo : String → String → String → String → String → Except PyError (Option String))
    (event : LambdaEvent) : LambdaOutput :=
  match lambdaHandlerCore envClientToken pages qo event with
  | .ok out => out
  | .error e => .err (pyErrMsg e) event

end NotionAgent

namespace NotionAgent

/-! ## Theorems -/

theorem append_empty_str (s : String) : s ++ "" = s := by
  cases s with
  | mk l => show String.mk (l ++ []) = String.mk l
            rw [List.append_nil]

theorem extractRichText_allStyled_nested (content url : String) :
    extractRichText [allStyledSpan content url] =
      "[" ++ ("`" ++ ("~~" ++ ("*" ++ ("**" ++ content ++ "**") ++ "*") ++ "~~") ++ "`") ++
        "](" ++ url ++ ")" := by
  show fmtRichTextObj (allStyledSpan content url) ++ "" = _
  rw [append_empty_str]
  rfl

theorem extractRichText_allStyled_flat (content url : String) :
    extractRichText [allStyledSpan content url] =
      "[`~~***" ++ content ++ "***~~`](" ++ url ++ ")" := by
  rw [extractRichText_allStyled_nested]
  cases content with
  | mk l =>
    cases url with
    | mk m =>
      show String.mk _ = String.mk _
      simp [List.append_assoc]

/-- C4 (corrected).  For a span with all four style flags set and a
hyperlink, `_extract_rich_text` applies the wrappers in source order bold,
italic, strikethrough, inline-code, then the hyperlink outermost, so bold
is the innermost inline style and inline-code the outermost inline style:
the result is the nesting with backticks outermost of the inline styles,
flattening to the literal form with the link syntax outermost overall. -/
theorem c4_style_precedence (content url : String) :
    extractRichText [allStyledSpan content url] =
      "[" ++ ("`" ++ ("~~" ++ ("*" ++ ("**" ++ content ++ "**") ++ "*") ++ "~~") ++ "`") ++
        "](" ++ url ++ ")" ∧
    extractRichText [allStyledSpan content url] =
      "[`~~***" ++ content ++ "***~~`](" ++ url ++ ")" :=
  ⟨extractRichText_allStyled_nested content url, extractRichText_allStyled_flat content url⟩

/-- C4 counterexample.  The claimed nesting (bold outermost of the inline
styles, backticks directly around the content) is not what the renderer
produces on the span with content `content` and hyperlink `url`. -/
theorem c4_counterexample :
    extractRichText [allStyledSpan "content" "url"] = "[`~~***content***~~`](url)" ∧
    extractRichText [allStyledSpan "content" "url"] ≠ "[~~***`content`***~~](url)" := by
  constructor
  · exact extractRichText_allStyled_flat "content" "url"
  · rw [extractRichText_allStyled_flat "content" "url"]
    decide

/-- C7.  A block listing split across three pages, with `has_more` true on
the first two pages and false on the third, yields all elements of all
three pages concatenated in original order. -/
theorem c7_pagination_three_pages (p1 p2 p3 : BlockPage) (h1 : p1.has_more = true)
    (h2 : p2.has_more = true) (h3 : p3.has_more = false) :
    collectBlocks [p1, p2, p3] = p1.results ++ p2.results ++ p3.results := by
  simp [collectBlocks, h1, h2, h3]

/-- C7 witness: three concrete single-element pages. -/
theorem c7_witness :
    collectBlocks [⟨[{ id := "a" }], true⟩, ⟨[{ id := "b" }], true⟩, ⟨[{ id := "c" }], false⟩] =
      [{ id := "a" }, { id := "b" }, { id := "c" }] := by
  have h := c7_pagination_three_pages ⟨[{ id := "a" }], true⟩ ⟨[{ id := "b" }], true⟩
    ⟨[{ id := "c" }], false⟩ rfl rfl rfl
  simpa using h

theorem getBlockComments_append_http (okPages : List CommentPage) (code : Nat) (msg : String)
    (acc : List NComment) (hm : ∀ p ∈ okPages, p.has_more = true) :
    getBlockComments (okPages.map .ok ++ [.error (.http code msg)]) acc =
      if code = 404 ∨ code = 403 then .ok (acc ++ okPages.flatMap (·.results))
      else .error (.http code msg) := by
  induction okPages generalizing acc with
  | nil => simp [getBlockComments]
  | cons p ps ih =>
    have hp : p.has_more = true := hm p (List.mem_cons_self ..)
    simp only [List.map_cons, List.cons_append, getBlockComments, hp, if_true, List.append_eq]
    rw [ih (acc ++ p.results) (fun q hq => hm q (List.mem_cons_of_mem _ hq))]
    simp [List.append_assoc]

/-- C5 (corrected).  In the comment-pagination loop, an HTTP 404 or 403
response ends the loop and yields the comments collected from the earlier
pages (the empty list when the failure occurs on the first request), and
any other HTTP failure is re-raised to the caller. -/
theorem c5_comment_fetch_http (okPages : List CommentPage) (code : Nat) (msg : String)
    (hm : ∀ p ∈ okPages, p.has_more = true) :
    ((code = 404 ∨ code = 403) →
      getBlockComments (okPages.map .ok ++ [.error (.http code msg)]) [] =
        .ok (okPages.flatMap (·.results))) ∧
    (¬(code = 404 ∨ code = 403) →
      getBlockComments (okPages.map .ok ++ [.error (.http code msg)]) [] =
        .error (.http code msg)) := by
  have h := getBlockComments_append_http okPages code msg [] hm
  constructor
  · intro hc
    rw [h, if_pos hc]
    simp
  · intro hc
    rw [h, if_neg hc]

/-- C5 witness: a first-page success followed by a 404 yields the page's
comment; followed by a 500 the error is re-raised. -/
theorem c5_witness :
    getBlockComments [Except.ok { results := [{ id := "c1" }], has_more := true },
        .error (.http 404 "gone")] [] = .ok [{ id := "c1" }] ∧
    getBlockComments [Except.ok { results := [{ id := "c1" }], has_more := true },
        .error (.http 500 "boom")] [] = .error (.http 500 "boom") := by
  constructor
  · have h := (c5_comment_fetch_http [{ results := [{ id := "c1" }], has_more := true }]
      404 "gone" (by decide)).1 (by decide)
    exact h.trans (by decide)
  · have h := (c5_comment_fetch_http [{ results := [{ id := "c1" }], has_more := true }]
      500 "boom" (by decide)).2 (by decide)
    exact h

/-- C5 counterexample.  When the 404 arrives on the second page the fetch
returns the comment collected from the first page, not the empty list the
claim states. -/
theorem c5_counterexample :
    getBlockComments [Except.ok { results := [{ id := "c1" }], has_more := true },
        .error (.http 404 "gone")] [] = .ok [{ id := "c1" }] ∧
    getBlockComments [Except.ok { results := [{ id := "c1" }], has_more := true },
        .error (.http 404 "gone")] [] ≠ .ok [] := by
  decide

/-- C8.  Every numbered-list element renders with the literal prefix
`1.` regardless of its position: a run of numbered blocks yields one
`1.`-prefixed line per block, never an incrementing counter. -/
theorem c8_numbered_literal (blocks : List NBlock)
    (h : ∀ b ∈ blocks, b.kind = .numbered ∧ pyStrip (contentOf b) ≠ "") :
    pureLines blocks =
      blocks.flatMap (fun b => ["block_id: " ++ b.id, "1. " ++ contentOf b, ""]) := by
  induction blocks with
  | nil => simp [pureLines]
  | cons b bs ih =>
    obtain ⟨hk, hc⟩ := h b (List.mem_cons_self ..)
    have hb : (pyStrip (contentOf b) == "") = false := beq_eq_false_iff_ne.mpr hc
    have hr : renderedB b = true := by
      simp [renderedB, hk, hb]
    simp [pureLines, hr, hdrLines, hk, ih (fun q hq => h q (List.mem_cons_of_mem _ hq))]

/-- C8 witness: three consecutive numbered elements render as three lines
all prefixed `1.`. -/
theorem c8_witness :
    pureLines [{ id := "n1", kind := .numbered, rich_text := [plainSpan "one"] },
      { id := "n2", kind := .numbered, rich_text := [plainSpan "two"] },
      { id := "n3", kind := .numbered, rich_text := [plainSpan "three"] }] =
      ["block_id: n1", "1. one", "", "block_id: n2", "1. two", "",
       "block_id: n3", "1. three", ""] := by
  have h := c8_numbered_literal
    [{ id := "n1", kind := .numbered, rich_text := [plainSpan "one"] },
     { id := "n2", kind := .numbered, rich_text := [plainSpan "two"] },
     { id := "n3", kind := .numbered, rich_text := [plainSpan "three"] }] (by decide)
  rw [h]
  decide

theorem mdGoF_blank (fuel : Nat) (lines : List String) (h : ∀ l ∈ lines, pyStrip l = "") :
    mdGoF fuel lines = [] := by
  induction fuel generalizing lines with
  | zero => simp [mdGoF]
  | succ f ih =>
    cases lines with
    | nil => simp [mdGoF]
    | cons l ls =>
      have hl : pyStrip l = "" := h l (List.mem_cons_self ..)
      simp [mdGoF, hl, ih ls (fun q hq => h q (List.mem_cons_of_mem _ hq))]

theorem markdownToNotion_blank (md : String) (h : ∀ l ∈ splitNl md, pyStrip l = "") :
    markdownToNotion md = [] := mdGoF_blank _ _ h

/-- C10.  A comment body whose lines all strip to empty converts to no
blocks, so `notion_comment` raises `ValueError` instead of returning a
failure outcome, and on the tool path that exception aborts the
orchestrator turn as a wrapped `OpenAI API error`. -/
theorem c10_empty_comment_raises (md : String) (h : ∀ l ∈ splitNl md, pyStrip l = "")
    (tok bid cn tcid pid : String) (c0 fc : Option String)
    (storeResp : Except PyError CreatedComment)
    (store : String → String → Except PyError CreatedComment) :
    notionComment (some tok) storeResp bid md cn =
      .error (.value "Comment markdown could not be converted to Notion blocks") ∧
    queryOpenai (some tok) store
      { content := c0,
        tool_calls := [{ id := tcid, name := "notion_comment",
                         args := { block_id := some bid, comment_markdown := some md } }] }
      fc pid cn =
      .error
        (.other "OpenAI API error: Comment markdown could not be converted to Notion blocks") := by
  have hb := markdownToNotion_blank md h
  constructor
  · simp [notionComment, hb]
  · simp [queryOpenai, runToolCalls, notionComment, hb, pyErrMsg]

/-- C10 witness: the whitespace-only comment body aborts the call. -/
theorem c10_witness :
    notionComment (some "t") (.ok {}) "b1" " \n " "Prompt" =
      .error (.value "Comment markdown could not be converted to Notion blocks") ∧
    queryOpenai (some "t") (fun _ _ => .ok {})
      { content := none,
        tool_calls := [{ id := "tc1", name := "notion_comment",
                         args := { block_id := some "b1", comment_markdown := some " \n " } }] }
      (some "done") "p1" "Prompt" =
      .error
        (.other "OpenAI API error: Comment markdown could not be converted to Notion blocks") :=
  c10_empty_comment_raises " \n " (by decide) "t" "b1" "Prompt" "tc1" "p1" none (some "done")
    (.ok {}) (fun _ _ => .ok {})

/-- C2 counterexample.  Rendering one paragraph (`hello`, id `abc`) and
parsing the result yields two paragraph blocks — the id-marker line
re-parses as a paragraph of its own — so the round trip does not reproduce
the original single (kind, content) pair. -/
theorem c2_counterexample :
    toPairs (markdownToNotion (renderMarkdown
      [{ id := "abc", kind := .paragraph, rich_text := [plainSpan "hello"] }])) =
      [(.paragraph, "block_id: abc"), (.paragraph, "hello")] ∧
    toPairs (markdownToNotion (renderMarkdown
      [{ id := "abc", kind := .paragraph, rich_text := [plainSpan "hello"] }])) ≠
      [(.paragraph, "hello")] := by
  decide

/-- C1 (code defect).  On a tool-call exchange the orchestrator persists
the final-turn reply as a comment on the changed page (the write list
contains it, authored as the prompt title) but returns `none` — Python
`None` — because the tool path of `query_openai` has no `return`
statement, contradicting the claim that the reply is the return value. -/
theorem c1_final_reply_persisted_but_not_returned :
    queryOpenai (some "tok") (fun _ _ => Except.ok { id := some "newc" })
      { content := none,
        tool_calls := [{ id := "call1", name := "notion_comment",
                         args := { block_id := some "b1", comment_markdown := some "nice" } }] }
      (some "Thanks, done.") "page1" "Prompt Title" =
      .ok (none, [("b1", "nice", "Prompt Title"),
                  ("page1", "Thanks, done.", "Prompt Title")]) := by
  decide

theorem unknown_user_header (uid t : String) :
    "**Comment by \"" ++ "Unknown User" ++ "\"" ++ "" ++ " (" ++ uid ++ ") at " ++ t ++ ":**" =
      "**Comment by \"Unknown User\" (" ++ uid ++ ") at " ++ t ++ ":**" := by
  cases uid with
  | mk l =>
    cases t with
    | mk m =>
      show String.mk _ = String.mk _
      simp [List.append_assoc]

/-- C6.  When the author lookup fails with any HTTP error, `get_user`
returns the sentinel identity (name `Unknown User`, empty email), the
comment still appears in the emitted lines with that author header, and
the enclosing markdown conversion completes without error. -/
theorem c6_author_fallback (e : PyError) (uid cid t : String) (rt : List RichTextObj)
    (uresp : String → Except PyError UserData) (hu : uresp uid = .error e)
    (hne : uid ≠ "") :
    getUser (.error e) uid [] =
      ({ name := "Unknown User", email := "", id := uid },
       [(uid, { name := "Unknown User", email := "", id := uid })]) ∧
    commentLines uresp
      [{ id := cid, rich_text := rt, created_by := uid, created_time := t }] [] =
      (["comment block id: " ++ cid,
        "**Comment by \"Unknown User\" (" ++ uid ++ ") at " ++ t ++ ":**",
        extractRichText rt],
       [(uid, { name := "Unknown User", email := "", id := uid })]) ∧
    (∀ (b : NBlock) (cresp : String → List (Except PyError CommentPage)),
      renderedB b = true →
      getBlockComments (cresp b.id) [] =
        .ok [{ id := cid, rich_text := rt, created_by := uid, created_time := t }] →
      ∃ s, notionToMarkdown cresp uresp [b] [] = .ok s) := by
  refine ⟨?_, ?_, ?_⟩
  · simp [getUser]
  · rw [← unknown_user_header uid t]
    simp [commentLines, hne, hu, getUser]
  · intro b cresp hb hcs
    simp only [notionToMarkdown, notionToMarkdownLines, hb, hcs, if_true]
    exact ⟨_, rfl⟩

theorem handlerSteps_ok_shape (envTok : Option String)
    (pages : String → Except PyError PageRecord)
    (qo : String → String → String → String → String → Except PyError (Option String))
    (event : LambdaEvent) (qp : QueryParams) (out : LambdaOutput)
    (h : handlerSteps envTok pages qo event qp = .ok out) :
    (∃ rd r, event.body_data = .ok (some rd) ∧ out = .success r rd.request_id) ∨
    (∃ msg, out = .err msg event) := by
  unfold handlerSteps at h
  repeat' split at h
  all_goals first
    | (injection h with h; subst h; exact Or.inr ⟨_, rfl⟩)
    | (injection h with h; subst h; exact Or.inl ⟨_, _, by assumption, rfl⟩)
    | exact Except.noConfusion h

/-- C9.  `lambda_handler` always returns a structured envelope: either
the success dictionary carrying the response and the request id echoed
from the trigger body, or the error dictionary carrying the message and
the original trigger event; no failure escapes as an exception. -/
theorem c9_structured_output (envTok : Option String)
    (pages : String → Except PyError PageRecord)
    (qo : String → String → String → String → String → Except PyError (Option String))
    (event : LambdaEvent) :
    (∃ rd r, event.body_data = .ok (some rd) ∧
      lambdaHandler envTok pages qo event = .success r rd.request_id) ∨
    (∃ msg, lambdaHandler envTok pages qo event = .err msg event) := by
  unfold lambdaHandler
  cases h : lambdaHandlerCore envTok pages qo event with
  | ok out =>
    rcases handlerSteps_ok_shape envTok pages qo event
        (event.queryStringParameters.getD {}) out h with ⟨rd, r, hb, rfl⟩ | ⟨msg, rfl⟩
    · exact Or.inl ⟨rd, r, hb, rfl⟩
    · exact Or.inr ⟨msg, rfl⟩
  | error e => exact Or.inr ⟨pyErrMsg e, rfl⟩

/-- C6 witness: a concrete comment whose author lookup 404s. -/
theorem c6_witness :
    getUser (.error (.http 404 "nf")) "u1" [] =
      ({ name := "Unknown User", email := "", id := "u1" },
       [("u1", { name := "Unknown User", email := "", id := "u1" })]) ∧
    commentLines (fun _ => .error (.http 404 "nf"))
      [{ id := "c1", rich_text := [plainSpan "hi"], created_by := "u1",
         created_time := "T1" }] [] =
      (["comment block id: c1", "**Comment by \"Unknown User\" (u1) at T1:**", "hi"],
       [("u1", { name := "Unknown User", email := "", id := "u1" })]) := by
  have h := c6_author_fallback (.http 404 "nf") "u1" "c1" "T1" [plainSpan "hi"]
    (fun _ => .error (.http 404 "nf")) rfl (by decide)
  exact ⟨h.1, h.2.1.trans (by decide)⟩

/-! ### String and list helper lemmas -/

theorem mk_data (s : String) : String.mk s.data = s := by
  cases s
  rfl

theorem isPrefixOf_append_self (a b : List Char) : a.isPrefixOf (a ++ b) = true := by
  induction a with
  | nil => simp [List.isPrefixOf]
  | cons c r ih => simp [List.isPrefixOf, ih]

theorem pyStarts_append_self (p s : String) : pyStarts (p ++ s) p = true := by
  unfold pyStarts
  rw [String.data_append]
  exact isPrefixOf_append_self p.data s.data

theorem head?_append_str (s t : String) (c : Char) (h : s.data.head? = some c) :
    (s ++ t).data.head? = some c := by
  rw [String.data_append]
  cases hs : s.data with
  | nil => rw [hs] at h; simp at h
  | cons a r =>
    rw [hs] at h
    simp at h
    simp [h]

theorem pyStarts_false_head (s p : String) (c d : Char) (hs : s.data.head? = some c)
    (hp : p.data.head? = some d) (hne : (d == c) = false) : pyStarts s p = false := by
  unfold pyStarts
  cases hsd : s.data with
  | nil => rw [hsd] at hs; simp at hs
  | cons a as =>
    cases hpd : p.data with
    | nil => rw [hpd] at hp; simp at hp
    | cons b bs =>
      rw [hsd] at hs
      rw [hpd] at hp
      simp at hs hp
      subst hs
      subst hp
      simp [List.isPrefixOf, hne]

theorem pyStarts_empty_false (p : String) (d : Char) (hp : p.data.head? = some d) :
    pyStarts "" p = false := by
  show List.isPrefixOf p.data ("" : String).data = false
  cases hpd : p.data with
  | nil => rw [hpd] at hp; simp at hp
  | cons b bs => rfl

theorem isNumberedLine_false_head (s : String) (c : Char) (hs : s.data.head? = some c)
    (h : (decide ('1' ≤ c) && decide (c ≤ '9')) = false) : isNumberedLine s = false := by
  unfold isNumberedLine
  split
  · rename_i c1 rest heq
    rw [heq] at hs
    simp at hs
    subst hs
    exact h
  · rfl

theorem isNumberedLine_one (x : String) : isNumberedLine ("1. " ++ x) = true := by
  have hd : ("1. " ++ x).data = '1' :: '.' :: ' ' :: x.data := by
    rw [String.data_append]
    rfl
  unfold isNumberedLine
  rw [hd]
  rfl

theorem length_dropWhile_le {α : Type} (p : α → Bool) (l : List α) :
    (l.dropWhile p).length ≤ l.length := by
  induction l with
  | nil => simp [List.dropWhile]
  | cons a r ih =>
    rw [List.dropWhile_cons]
    by_cases h : p a
    · simp only [h, if_true]
      exact Nat.le_succ_of_le ih
    · simp [h]

theorem getLast?_dropWhile (p : Char → Bool) (l : List Char) (h : l.dropWhile p ≠ []) :
    (l.dropWhile p).getLast? = l.getLast? := by
  induction l with
  | nil => simp [List.dropWhile] at h
  | cons a r ih =>
    rw [List.dropWhile_cons] at h ⊢
    by_cases hp : p a
    · simp only [hp, if_true] at h ⊢
      have hr : r ≠ [] := by
        intro e
        rw [e] at h
        simp [List.dropWhile] at h
      rw [ih h]
      cases r with
      | nil => exact absurd rfl hr
      | cons b t => rw [List.getLast?_cons_cons]
    · simp [hp]

theorem splitNlCh_no_nl (a : List Char) (h : Char.ofNat 10 ∉ a) : splitNlCh a = [a] := by
  induction a with
  | nil => rfl
  | cons c r ih =>
    have hc : ¬ c = '\n' := by
      intro e
      exact h (by rw [show Char.ofNat 10 = '\n' from rfl, ← e]; exact List.mem_cons_self ..)
    have hr := ih (fun m => h (List.mem_cons_of_mem _ m))
    simp [splitNlCh, hc, hr]

theorem splitNlCh_append_nl (a x : List Char) (h : Char.ofNat 10 ∉ a) :
    splitNlCh (a ++ '\n' :: x) = a :: splitNlCh x := by
  induction a with
  | nil => simp [splitNlCh]
  | cons c r ih =>
    have hc : ¬ c = '\n' := by
      intro e
      exact h (by rw [show Char.ofNat 10 = '\n' from rfl, ← e]; exact List.mem_cons_self ..)
    have hr := ih (fun m => h (List.mem_cons_of_mem _ m))
    simp [splitNlCh, hc, hr]

theorem splitNlCh_joinNlCh (Y : List (List Char)) (hY : Y ≠ [])
    (h : ∀ a ∈ Y, Char.ofNat 10 ∉ a) : splitNlCh (joinNlCh Y) = Y := by
  induction Y with
  | nil => exact absurd rfl hY
  | cons a rest ih =>
    cases rest with
    | nil => exact splitNlCh_no_nl a (h a (List.mem_cons_self ..))
    | cons b r =>
      show splitNlCh (a ++ '\n' :: joinNlCh (b :: r)) = _
      rw [splitNlCh_append_nl a _ (h a (List.mem_cons_self ..))]
      rw [ih (by simp) (fun q hq => h q (List.mem_cons_of_mem _ hq))]

theorem map_mk_data (M : List String) : (M.map String.data).map String.mk = M := by
  induction M with
  | nil => rfl
  | cons a r ih => simp [ih, mk_data]

theorem splitNl_joinNl (M : List String) (hM : M ≠ [])
    (h : ∀ a ∈ M, Char.ofNat 10 ∉ a.data) : splitNl (joinNl M) = M := by
  show (splitNlCh (joinNlCh (M.map String.data))).map String.mk = M
  rw [splitNlCh_joinNlCh (M.map String.data) (by simpa using hM)
    (by intro a ha
        rcases List.mem_map.mp ha with ⟨s, hs, rfl⟩
        exact h s hs)]
  exact map_mk_data M

theorem joinNlCh_concat_nil (Y : List (List Char)) (hY : Y ≠ []) :
    joinNlCh (Y ++ [[]]) = joinNlCh Y ++ ['\n'] := by
  induction Y with
  | nil => exact absurd rfl hY
  | cons a rest ih =>
    cases rest with
    | nil => rfl
    | cons b r =>
      show a ++ '\n' :: joinNlCh ((b :: r) ++ [[]]) = (a ++ '\n' :: joinNlCh (b :: r)) ++ ['\n']
      rw [ih (by simp)]
      simp

theorem joinNl_concat_empty (X : List String) (hX : X ≠ []) :
    joinNl (X ++ [""]) = joinNl X ++ "\n" := by
  show String.mk (joinNlCh ((X ++ [""]).map String.data)) = _
  rw [List.map_append]
  show String.mk (joinNlCh (X.map String.data ++ [[]])) = _
  rw [joinNlCh_concat_nil (X.map String.data) (by simpa using hX)]
  rfl

theorem dropWhile_eq_self_of_head (l : List Char) (c : Char) (h : l.head? = some c)
    (hc : isPySpace c = false) : l.dropWhile isPySpace = l := by
  cases l with
  | nil => simp at h
  | cons a r =>
    simp at h
    subst h
    simp [List.dropWhile_cons, hc]

theorem pyStripList_eq_self (l : List Char) (c d : Char) (hh : l.head? = some c)
    (hc : isPySpace c = false) (hl : l.getLast? = some d) (hd : isPySpace d = false) :
    pyStripList l = l := by
  unfold pyStripList
  rw [dropWhile_eq_self_of_head l c hh hc]
  rw [dropWhile_eq_self_of_head l.reverse d (by rw [List.head?_reverse]; exact hl) hd]
  exact List.reverse_reverse l

theorem eq_empty_of_data_nil (s : String) (h : s.data = []) : s = "" := by
  cases s with
  | mk l =>
    simp only at h
    subst h
    rfl

theorem pyStripList_concat_nl (l : List Char) (c d : Char) (hh : l.head? = some c)
    (hc : isPySpace c = false) (hl : l.getLast? = some d) (hd : isPySpace d = false) :
    pyStripList (l ++ ['\n']) = l := by
  have hne : l ≠ [] := by
    intro e
    rw [e] at hh
    simp at hh
  have hh2 : (l ++ ['\n']).head? = some c := by
    rw [List.head?_append_of_ne_nil l hne]
    exact hh
  unfold pyStripList
  rw [dropWhile_eq_self_of_head (l ++ ['\n']) c hh2 hc]
  rw [List.reverse_concat]
  rw [List.dropWhile_cons]
  simp only [show isPySpace '\n' = true from rfl, if_true]
  rw [dropWhile_eq_self_of_head l.reverse d (by rw [List.head?_reverse]; exact hl) hd]
  exact List.reverse_reverse l

theorem pyStrip_append_newline (t : String) (c d : Char) (hh : t.data.head? = some c)
    (hc : isPySpace c = false) (hl : t.data.getLast? = some d) (hd : isPySpace d = false) :
    pyStrip (t ++ "\n") = t := by
  show String.mk (pyStripList (t ++ "\n").data) = t
  rw [String.data_append]
  rw [show ("\n" : String).data = ['\n'] from rfl]
  rw [pyStripList_concat_nl t.data c d hh hc hl hd]

theorem data_of_strip_eq (s : String) (hs : pyStrip s = s) : pyStripList s.data = s.data := by
  have := congrArg String.data hs
  exact this

theorem length_pyStripList_le (l : List Char) :
    (pyStripList l).length ≤ (l.dropWhile isPySpace).length := by
  unfold pyStripList
  rw [List.length_reverse]
  calc (List.dropWhile isPySpace (l.dropWhile isPySpace).reverse).length
      ≤ (l.dropWhile isPySpace).reverse.length := length_dropWhile_le _ _
    _ = (l.dropWhile isPySpace).length := List.length_reverse _

theorem head_not_space_of_stripped (s : String) (hs : pyStrip s = s) (hne : s ≠ "") :
    ∃ c, s.data.head? = some c ∧ isPySpace c = false := by
  cases hd : s.data with
  | nil => exact absurd (eq_empty_of_data_nil s hd) hne
  | cons a r =>
    refine ⟨a, by simp [hd], ?_⟩
    by_contra hsp
    rw [Bool.not_eq_false] at hsp
    have h1 : (pyStripList s.data).length ≤ r.length := by
      calc (pyStripList s.data).length ≤ (s.data.dropWhile isPySpace).length :=
            length_pyStripList_le _
        _ = (List.dropWhile isPySpace r).length := by rw [hd, List.dropWhile_cons, if_pos hsp]
        _ ≤ r.length := length_dropWhile_le _ _
    rw [data_of_strip_eq s hs, hd] at h1
    simp only [List.length_cons] at h1
    omega

theorem getLast_not_space_of_stripped (s : String) (hs : pyStrip s = s) (hne : s ≠ "") :
    ∃ d, s.data.getLast? = some d ∧ isPySpace d = false := by
  rcases List.eq_nil_or_concat s.data with hd | ⟨y, d, hd⟩
  · exact absurd (eq_empty_of_data_nil s hd) hne
  · rw [List.concat_eq_append] at hd
    refine ⟨d, by simp [hd], ?_⟩
    by_contra hsp
    rw [Bool.not_eq_false] at hsp
    have hxne : s.data ≠ [] := by rw [hd]; simp
    have hwne : s.data.dropWhile isPySpace ≠ [] := by
      intro e
      have h0 : pyStripList s.data = [] := by
        unfold pyStripList
        rw [e]
        rfl
      rw [data_of_strip_eq s hs] at h0
      exact hxne h0
    have hwl : (s.data.dropWhile isPySpace).getLast? = some d := by
      rw [getLast?_dropWhile _ _ hwne, hd]
      exact List.getLast?_concat y
    cases hrw : (s.data.dropWhile isPySpace).reverse with
    | nil =>
      exact absurd (by simpa using congrArg List.reverse hrw) hwne
    | cons e u =>
      have he : e = d := by
        have h2 := List.head?_reverse (s.data.dropWhile isPySpace)
        rw [hrw, hwl] at h2
        simpa using h2
      subst he
      have hlen : (pyStripList s.data).length ≤ u.length := by
        unfold pyStripList
        rw [hrw, List.length_reverse, List.dropWhile_cons, if_pos hsp]
        exact length_dropWhile_le _ _
      have hlen2 : u.length + 1 ≤ s.data.length := by
        have h3 : (s.data.dropWhile isPySpace).length ≤ s.data.length := length_dropWhile_le _ _
        have h4 : (s.data.dropWhile isPySpace).reverse.length = u.length + 1 := by
          rw [hrw]
          rfl
        rw [List.length_reverse] at h4
        omega
      rw [data_of_strip_eq s hs] at hlen
      omega

theorem joinNlCh_head? (a : List Char) (rest : List (List Char)) (c : Char)
    (h : a.head? = some c) : (joinNlCh (a :: rest)).head? = some c := by
  cases rest with
  | nil => exact h
  | cons b r =>
    show (a ++ '\n' :: joinNlCh (b :: r)).head? = some c
    rw [List.head?_append_of_ne_nil a (by intro e; rw [e] at h; simp at h)]
    exact h

theorem joinNlCh_getLast? (Y : List (List Char)) (a : List Char) (d : Char)
    (hY : Y.getLast? = some a) (hd : a.getLast? = some d) :
    (joinNlCh Y).getLast? = some d := by
  induction Y with
  | nil => simp at hY
  | cons x rest ih =>
    cases rest with
    | nil =>
      simp at hY
      subst hY
      exact hd
    | cons b r =>
      have hY2 : (b :: r).getLast? = some a := by
        rw [← List.getLast?_cons_cons (a := x)]
        exact hY
      have hJ : (joinNlCh (b :: r)).getLast? = some d := ih hY2
      show (x ++ '\n' :: joinNlCh (b :: r)).getLast? = some d
      rw [List.getLast?_append]
      cases hJd : joinNlCh (b :: r) with
      | nil => rw [hJd] at hJ; simp at hJ
      | cons j js =>
        rw [hJd] at hJ
        rw [List.getLast?_cons_cons, hJ]
        rfl

theorem joinNl_head? (x : String) (rest : List String) (c : Char)
    (h : x.data.head? = some c) : (joinNl (x :: rest)).data.head? = some c :=
  joinNlCh_head? x.data (rest.map String.data) c h

theorem getLast?_map_str (l : List String) :
    (l.map String.data).getLast? = l.getLast?.map String.data := by
  induction l with
  | nil => rfl
  | cons a r ih =>
    cases r with
    | nil => rfl
    | cons b t =>
      simp only [List.map_cons]
      rw [List.getLast?_cons_cons]
      rw [show ((a :: b :: t).getLast? = (b :: t).getLast?) from List.getLast?_cons_cons]
      simp only [List.map_cons] at ih
      exact ih

theorem joinNl_getLast? (X : List String) (xl : String) (d : Char)
    (hX : X.getLast? = some xl) (hd : xl.data.getLast? = some d) :
    (joinNl X).data.getLast? = some d := by
  apply joinNlCh_getLast? (X.map String.data) xl.data d
  · rw [getLast?_map_str, hX]
    rfl
  · exact hd

theorem mdGoF_fuel_inv (f1 : Nat) : ∀ (lines : List String) (f2 : Nat),
    lines.length ≤ f1 → lines.length ≤ f2 → mdGoF f1 lines = mdGoF f2 lines := by
  induction f1 with
  | zero =>
    intro lines f2 h1 h2
    have he : lines = [] := List.eq_nil_of_length_eq_zero (Nat.le_zero.mp h1)
    subst he
    cases f2 <;> rfl
  | succ f ih =>
    intro lines f2 h1 h2
    cases lines with
    | nil => cases f2 <;> rfl
    | cons l ls =>
      cases f2 with
      | zero => simp at h2
      | succ g =>
        have hls : ls.length ≤ f := by
          simp only [List.length_cons] at h1
          omega
        have hls2 : ls.length ≤ g := by
          simp only [List.length_cons] at h2
          omega
        have hr : ((ls.dropWhile (fun s => !isFenceLine s)).drop 1).length ≤ ls.length := by
          calc ((ls.dropWhile (fun s => !isFenceLine s)).drop 1).length
              ≤ (ls.dropWhile (fun s => !isFenceLine s)).length := by
                rw [List.length_drop]
                omega
            _ ≤ ls.length := length_dropWhile_le _ _
        show mdGoF (f + 1) (l :: ls) = mdGoF (g + 1) (l :: ls)
        simp only [mdGoF]
        split_ifs
        · exact ih ls g hls hls2
        · rw [ih ls g hls hls2]
        · rw [ih _ g (le_trans hr hls) (le_trans hr hls2)]
        · rw [ih ls g hls hls2]
        · rw [ih ls g hls hls2]
        · rw [ih ls g hls hls2]
        · rw [ih ls g hls hls2]

theorem mdFromLines_nil : mdFromLines [] = [] := rfl

theorem mdFromLines_blank (l : String) (ls : List String) (h : pyStrip l = "") :
    mdFromLines (l :: ls) = mdFromLines ls := by
  show mdGoF (ls.length + 1) (l :: ls) = _
  simp only [mdGoF]
  rw [if_pos h]
  rfl

theorem mdFromLines_heading (l : String) (ls : List String) (hne : pyStrip l ≠ "")
    (hh : pyStarts (pyStrip l) "#" = true) :
    mdFromLines (l :: ls) =
      ⟨.heading ((pyStrip l).data.takeWhile (· == '#')).length,
       pyStrip ⟨(pyStrip l).data.dropWhile (fun c => c == '#' || c == ' ')⟩, ""⟩ ::
        mdFromLines ls := by
  show mdGoF (ls.length + 1) (l :: ls) = _
  simp only [mdGoF]
  rw [if_neg hne, if_pos hh]
  rfl

theorem mdFromLines_code (l : String) (ls : List String) (hne : pyStrip l ≠ "")
    (h1 : pyStarts (pyStrip l) "#" = false) (h2 : pyStarts (pyStrip l) "```" = true) :
    mdFromLines (l :: ls) =
      ⟨.code, joinNl (ls.takeWhile (fun s => !isFenceLine s)),
       pyStrip ⟨(pyStrip l).data.drop 3⟩⟩ ::
        mdFromLines ((ls.dropWhile (fun s => !isFenceLine s)).drop 1) := by
  show mdGoF (ls.length + 1) (l :: ls) = _
  simp only [mdGoF]
  rw [if_neg hne, if_neg (by simp [h1]), if_pos h2]
  have hr : ((ls.dropWhile (fun s => !isFenceLine s)).drop 1).length ≤ ls.length := by
    calc ((ls.dropWhile (fun s => !isFenceLine s)).drop 1).length
        ≤ (ls.dropWhile (fun s => !isFenceLine s)).length := by
          rw [List.length_drop]
          omega
      _ ≤ ls.length := length_dropWhile_le _ _
  rw [mdGoF_fuel_inv ls.length _ _ hr (le_refl _)]
  rfl

theorem mdFromLines_bulleted (l : String) (ls : List String) (hne : pyStrip l ≠ "")
    (h1 : pyStarts (pyStrip l) "#" = false) (h2 : pyStarts (pyStrip l) "```" = false)
    (h3 : pyStarts (pyStrip l) "- " = true) :
    mdFromLines (l :: ls) =
      ⟨.bulleted, pyStrip ⟨(pyStrip l).data.drop 2⟩, ""⟩ :: mdFromLines ls := by
  show mdGoF (ls.length + 1) (l :: ls) = _
  simp only [mdGoF]
  rw [if_neg hne, if_neg (by simp [h1]), if_neg (by simp [h2]), if_pos h3]
  rfl

theorem mdFromLines_numbered (l : String) (ls : List String) (hne : pyStrip l ≠ "")
    (h1 : pyStarts (pyStrip l) "#" = false) (h2 : pyStarts (pyStrip l) "```" = false)
    (h3 : pyStarts (pyStrip l) "- " = false) (h4 : isNumberedLine (pyStrip l) = true) :
    mdFromLines (l :: ls) =
      ⟨.numbered, pyStrip ⟨(pyStrip l).data.drop 3⟩, ""⟩ :: mdFromLines ls := by
  show mdGoF (ls.length + 1) (l :: ls) = _
  simp only [mdGoF]
  rw [if_neg hne, if_neg (by simp [h1]), if_neg (by simp [h2]), if_neg (by simp [h3]),
    if_pos h4]
  rfl

theorem mdFromLines_quote (l : String) (ls : List String) (hne : pyStrip l ≠ "")
    (h1 : pyStarts (pyStrip l) "#" = false) (h2 : pyStarts (pyStrip l) "```" = false)
    (h3 : pyStarts (pyStrip l) "- " = false) (h4 : isNumberedLine (pyStrip l) = false)
    (h5 : pyStarts (pyStrip l) "> " = true) :
    mdFromLines (l :: ls) =
      ⟨.quote, pyStrip ⟨(pyStrip l).data.drop 2⟩, ""⟩ :: mdFromLines ls := by
  show mdGoF (ls.length + 1) (l :: ls) = _
  simp only [mdGoF]
  rw [if_neg hne, if_neg (by simp [h1]), if_neg (by simp [h2]), if_neg (by simp [h3]),
    if_neg (by simp [h4]), if_pos h5]
  rfl

theorem mdFromLines_paragraph (l : String) (ls : List String) (hne : pyStrip l ≠ "")
    (h1 : pyStarts (pyStrip l) "#" = false) (h2 : pyStarts (pyStrip l) "```" = false)
    (h3 : pyStarts (pyStrip l) "- " = false) (h4 : isNumberedLine (pyStrip l) = false)
    (h5 : pyStarts (pyStrip l) "> " = false) :
    mdFromLines (l :: ls) = ⟨.paragraph, pyStrip l, ""⟩ :: mdFromLines ls := by
  show mdGoF (ls.length + 1) (l :: ls) = _
  simp only [mdGoF]
  rw [if_neg hne, if_neg (by simp [h1]), if_neg (by simp [h2]), if_neg (by simp [h3]),
    if_neg (by simp [h4]), if_neg (by simp [h5])]
  rfl

theorem isPrefixOf_self (a : List Char) : a.isPrefixOf a = true := by
  have h := isPrefixOf_append_self a []
  rw [List.append_nil] at h
  exact h

theorem pyStarts_self (p : String) : pyStarts p p = true := isPrefixOf_self p.data

theorem pyStarts_hash_of_head (s : String) (h : s.data.head? = some '#') :
    pyStarts s "#" = true := by
  unfold pyStarts
  cases hd : s.data with
  | nil => rw [hd] at h; simp at h
  | cons a r =>
    rw [hd] at h
    simp at h
    subst h
    simp [List.isPrefixOf]

theorem takeWhile_hash_replicate (n : Nat) (x : List Char) :
    List.takeWhile (fun c => c == '#') (List.replicate n '#' ++ ' ' :: x) =
      List.replicate n '#' := by
  induction n with
  | zero => simp [List.takeWhile_cons]
  | succ m ih => simp [List.replicate_succ, List.takeWhile_cons, ih]

theorem dropWhile_hashSpace (n : Nat) (x : List Char) (c : Char) (hx : x.head? = some c)
    (h1 : (c == '#') = false) (h2 : (c == ' ') = false) :
    List.dropWhile (fun c => c == '#' || c == ' ') (List.replicate n '#' ++ ' ' :: x) = x := by
  induction n with
  | zero =>
    simp only [List.replicate_zero, List.nil_append, List.dropWhile_cons]
    simp only [show ((' ' == '#') || (' ' == ' ')) = true from rfl, if_true]
    cases hd : x with
    | nil => rfl
    | cons a r =>
      rw [hd] at hx
      simp at hx
      subst hx
      simp [List.dropWhile_cons, h1, h2]
  | succ m ih =>
    simp only [List.replicate_succ, List.cons_append, List.dropWhile_cons]
    simp only [show (('#' == '#') || ('#' == ' ')) = true from rfl, if_true]
    exact ih

theorem prefixed_line_strip (pre c : String) (p0 : Char) (hpre : pre.data.head? = some p0)
    (hp0 : isPySpace p0 = false) (hcs : pyStrip c = c) (hcne : c ≠ "") :
    pyStrip (pre ++ c) = pre ++ c := by
  obtain ⟨d, hld, hd⟩ := getLast_not_space_of_stripped c hcs hcne
  show String.mk (pyStripList (pre ++ c).data) = pre ++ c
  rw [String.data_append]
  rw [pyStripList_eq_self (pre.data ++ c.data) p0 d
    (by rw [← String.data_append]; exact head?_append_str pre c p0 hpre) hp0
    (by rw [List.getLast?_append, hld]; rfl) hd]
  rw [← String.data_append]

theorem pyStrip_fence : pyStrip "```" = "```" := rfl

theorem fence_lang_strip (lang : String) (hls : pyStrip lang = lang) :
    pyStrip ("```" ++ lang) = "```" ++ lang := by
  by_cases he : lang = ""
  · subst he
    rfl
  · exact prefixed_line_strip "```" lang '`' rfl rfl hls he

theorem isFenceLine_fence : isFenceLine "```" = true := by
  unfold isFenceLine
  rw [pyStrip_fence]
  exact pyStarts_self "```"

theorem parse_marker_line (id : String) (T : List String)
    (hid : pyStrip ("block_id: " ++ id) = "block_id: " ++ id) :
    mdFromLines (("block_id: " ++ id) :: T) =
      (⟨.paragraph, "block_id: " ++ id, ""⟩ : OutBlock) :: mdFromLines T := by
  have hhead : ("block_id: " ++ id).data.head? = some 'b' := head?_append_str _ _ _ rfl
  have hne : pyStrip ("block_id: " ++ id) ≠ "" := by
    rw [hid]
    intro e
    rw [e] at hhead
    simp at hhead
  have h1 : pyStarts (pyStrip ("block_id: " ++ id)) "#" = false := by
    rw [hid]
    exact pyStarts_false_head _ _ 'b' '#' hhead rfl rfl
  have h2 : pyStarts (pyStrip ("block_id: " ++ id)) "```" = false := by
    rw [hid]
    exact pyStarts_false_head _ _ 'b' '`' hhead rfl rfl
  have h3 : pyStarts (pyStrip ("block_id: " ++ id)) "- " = false := by
    rw [hid]
    exact pyStarts_false_head _ _ 'b' '-' hhead rfl rfl
  have h4 : isNumberedLine (pyStrip ("block_id: " ++ id)) = false := by
    rw [hid]
    exact isNumberedLine_false_head _ 'b' hhead rfl
  have h5 : pyStarts (pyStrip ("block_id: " ++ id)) "> " = false := by
    rw [hid]
    exact pyStarts_false_head _ _ 'b' '>' hhead rfl rfl
  rw [mdFromLines_paragraph _ T hne h1 h2 h3 h4 h5, hid]

theorem parse_paragraph_line (c : String) (T : List String) (hcs : pyStrip c = c)
    (hcne : c ≠ "") (h1 : pyStarts c "#" = false) (h2 : pyStarts c "```" = false)
    (h3 : pyStarts c "- " = false) (h4 : isNumberedLine c = false)
    (h5 : pyStarts c "> " = false) :
    mdFromLines (c :: T) = (⟨.paragraph, c, ""⟩ : OutBlock) :: mdFromLines T := by
  rw [mdFromLines_paragraph c T (by rw [hcs]; exact hcne) (by rw [hcs]; exact h1)
    (by rw [hcs]; exact h2) (by rw [hcs]; exact h3) (by rw [hcs]; exact h4)
    (by rw [hcs]; exact h5), hcs]

theorem parse_bulleted_line (c : String) (T : List String) (hcs : pyStrip c = c)
    (hcne : c ≠ "") :
    mdFromLines (("- " ++ c) :: T) = (⟨.bulleted, c, ""⟩ : OutBlock) :: mdFromLines T := by
  have hstrip : pyStrip ("- " ++ c) = "- " ++ c :=
    prefixed_line_strip "- " c '-' rfl rfl hcs hcne
  have hhead : ("- " ++ c).data.head? = some '-' := head?_append_str _ _ _ rfl
  have hne : pyStrip ("- " ++ c) ≠ "" := by
    rw [hstrip]
    intro e
    rw [e] at hhead
    simp at hhead
  have h1 : pyStarts (pyStrip ("- " ++ c)) "#" = false := by
    rw [hstrip]
    exact pyStarts_false_head _ _ '-' '#' hhead rfl rfl
  have h2 : pyStarts (pyStrip ("- " ++ c)) "```" = false := by
    rw [hstrip]
    exact pyStarts_false_head _ _ '-' '`' hhead rfl rfl
  have h3 : pyStarts (pyStrip ("- " ++ c)) "- " = true := by
    rw [hstrip]
    exact pyStarts_append_self "- " c
  have hc2 : pyStrip (String.mk ((pyStrip ("- " ++ c)).data.drop 2)) = c := by
    rw [hstrip, String.data_append]
    rw [show ("- " : String).data = ['-', ' '] from rfl]
    rw [show List.drop 2 (['-', ' '] ++ c.data) = c.data from rfl]
    rw [mk_data]
    exact hcs
  rw [mdFromLines_bulleted _ T hne h1 h2 h3, hc2]

theorem parse_numbered_line (c : String) (T : List String) (hcs : pyStrip c = c)
    (hcne : c ≠ "") :
    mdFromLines (("1. " ++ c) :: T) = (⟨.numbered, c, ""⟩ : OutBlock) :: mdFromLines T := by
  have hstrip : pyStrip ("1. " ++ c) = "1. " ++ c :=
    prefixed_line_strip "1. " c '1' rfl rfl hcs hcne
  have hhead : ("1. " ++ c).data.head? = some '1' := head?_append_str _ _ _ rfl
  have hne : pyStrip ("1. " ++ c) ≠ "" := by
    rw [hstrip]
    intro e
    rw [e] at hhead
    simp at hhead
  have h1 : pyStarts (pyStrip ("1. " ++ c)) "#" = false := by
    rw [hstrip]
    exact pyStarts_false_head _ _ '1' '#' hhead rfl rfl
  have h2 : pyStarts (pyStrip ("1. " ++ c)) "```" = false := by
    rw [hstrip]
    exact pyStarts_false_head _ _ '1' '`' hhead rfl rfl
  have h3 : pyStarts (pyStrip ("1. " ++ c)) "- " = false := by
    rw [hstrip]
    exact pyStarts_false_head _ _ '1' '-' hhead rfl rfl
  have h4 : isNumberedLine (pyStrip ("1. " ++ c)) = true := by
    rw [hstrip]
    exact isNumberedLine_one c
  have hc3 : pyStrip (String.mk ((pyStrip ("1. " ++ c)).data.drop 3)) = c := by
    rw [hstrip, String.data_append]
    rw [show ("1. " : String).data = ['1', '.', ' '] from rfl]
    rw [show List.drop 3 (['1', '.', ' '] ++ c.data) = c.data from rfl]
    rw [mk_data]
    exact hcs
  rw [mdFromLines_numbered _ T hne h1 h2 h3 h4, hc3]

theorem parse_quote_line (c : String) (T : List String) (hcs : pyStrip c = c)
    (hcne : c ≠ "") :
    mdFromLines (("> " ++ c) :: T) = (⟨.quote, c, ""⟩ : OutBlock) :: mdFromLines T := by
  have hstrip : pyStrip ("> " ++ c) = "> " ++ c :=
    prefixed_line_strip "> " c '>' rfl rfl hcs hcne
  have hhead : ("> " ++ c).data.head? = some '>' := head?_append_str _ _ _ rfl
  have hne : pyStrip ("> " ++ c) ≠ "" := by
    rw [hstrip]
    intro e
    rw [e] at hhead
    simp at hhead
  have h1 : pyStarts (pyStrip ("> " ++ c)) "#" = false := by
    rw [hstrip]
    exact pyStarts_false_head _ _ '>' '#' hhead rfl rfl
  have h2 : pyStarts (pyStrip ("> " ++ c)) "```" = false := by
    rw [hstrip]
    exact pyStarts_false_head _ _ '>' '`' hhead rfl rfl
  have h3 : pyStarts (pyStrip ("> " ++ c)) "- " = false := by
    rw [hstrip]
    exact pyStarts_false_head _ _ '>' '-' hhead rfl rfl
  have h4 : isNumberedLine (pyStrip ("> " ++ c)) = false := by
    rw [hstrip]
    exact isNumberedLine_false_head _ '>' hhead rfl
  have h5 : pyStarts (pyStrip ("> " ++ c)) "> " = true := by
    rw [hstrip]
    exact pyStarts_append_self "> " c
  have hc2 : pyStrip (String.mk ((pyStrip ("> " ++ c)).data.drop 2)) = c := by
    rw [hstrip, String.data_append]
    rw [show ("> " : String).data = ['>', ' '] from rfl]
    rw [show List.drop 2 (['>', ' '] ++ c.data) = c.data from rfl]
    rw [mk_data]
    exact hcs
  rw [mdFromLines_quote _ T hne h1 h2 h3 h4 h5, hc2]

theorem parse_heading_line (n : Nat) (c : String) (T : List String) (hn : 1 ≤ n)
    (hcs : pyStrip c = c) (hcne : c ≠ "") (hhash : c.data.head? ≠ some '#') :
    mdFromLines ((hashes n ++ " " ++ c) :: T) =
      (⟨.heading n, c, ""⟩ : OutBlock) :: mdFromLines T := by
  obtain ⟨c0, hc0, hc0s⟩ := head_not_space_of_stripped c hcs hcne
  obtain ⟨m, rfl⟩ : ∃ m, n = m + 1 := ⟨n - 1, by omega⟩
  have hpre : (hashes (m + 1) ++ " ").data.head? = some '#' := by
    apply head?_append_str
    rw [show (hashes (m + 1)).data = '#' :: List.replicate m '#' from rfl]
    rfl
  have hhead : (hashes (m + 1) ++ " " ++ c).data.head? = some '#' :=
    head?_append_str _ _ _ hpre
  have hstrip : pyStrip (hashes (m + 1) ++ " " ++ c) = hashes (m + 1) ++ " " ++ c :=
    prefixed_line_strip (hashes (m + 1) ++ " ") c '#' hpre rfl hcs hcne
  have hne : pyStrip (hashes (m + 1) ++ " " ++ c) ≠ "" := by
    rw [hstrip]
    intro e
    rw [e] at hhead
    simp at hhead
  have hst : pyStarts (pyStrip (hashes (m + 1) ++ " " ++ c)) "#" = true := by
    rw [hstrip]
    exact pyStarts_hash_of_head _ hhead
  have hdata : (hashes (m + 1) ++ " " ++ c).data =
      List.replicate (m + 1) '#' ++ ' ' :: c.data := by
    rw [String.data_append, String.data_append]
    rw [show (hashes (m + 1)).data = List.replicate (m + 1) '#' from rfl]
    rw [show (" " : String).data = [' '] from rfl]
    simp [List.append_assoc]
  have hc01 : (c0 == '#') = false := by
    rcases hq : c0 == '#' with _ | _
    · rfl
    · exfalso
      have he : c0 = '#' := by
        have := hq
        simpa using this
      rw [he] at hc0
      exact hhash hc0
  have hc02 : (c0 == ' ') = false := by
    rcases hq : c0 == ' ' with _ | _
    · rfl
    · exfalso
      have he : c0 = ' ' := by
        have := hq
        simpa using this
      rw [he] at hc0s
      exact absurd hc0s (by simp [isPySpace])
  rw [mdFromLines_heading _ T hne hst, hstrip, hdata]
  rw [takeWhile_hash_replicate (m + 1) c.data, List.length_replicate]
  rw [dropWhile_hashSpace (m + 1) c.data c0 hc0 hc01 hc02, mk_data, hcs]

theorem parse_code_lines (lang c : String) (T : List String) (hls : pyStrip lang = lang)
    (hcs : pyStrip c = c) (hcne : c ≠ "") (hcf : pyStarts c "```" = false) :
    mdFromLines (("```" ++ lang) :: c :: "```" :: T) =
      (⟨.code, c, lang⟩ : OutBlock) :: mdFromLines T := by
  have hstrip := fence_lang_strip lang hls
  have hhead : ("```" ++ lang).data.head? = some '`' := head?_append_str _ _ _ rfl
  have hne : pyStrip ("```" ++ lang) ≠ "" := by
    rw [hstrip]
    intro e
    rw [e] at hhead
    simp at hhead
  have h1 : pyStarts (pyStrip ("```" ++ lang)) "#" = false := by
    rw [hstrip]
    exact pyStarts_false_head _ _ '`' '#' hhead rfl rfl
  have h2 : pyStarts (pyStrip ("```" ++ lang)) "```" = true := by
    rw [hstrip]
    exact pyStarts_append_self "```" lang
  have hfc : isFenceLine c = false := by
    unfold isFenceLine
    rw [hcs]
    exact hcf
  have htake : (c :: "```" :: T).takeWhile (fun s => !isFenceLine s) = [c] := by
    simp [List.takeWhile_cons, hfc, isFenceLine_fence]
  have hdrop : ((c :: "```" :: T).dropWhile (fun s => !isFenceLine s)).drop 1 = T := by
    simp [List.dropWhile_cons, hfc, isFenceLine_fence]
  have hjoin : joinNl [c] = c := mk_data c
  have hlang : pyStrip (String.mk ((pyStrip ("```" ++ lang)).data.drop 3)) = lang := by
    rw [hstrip, String.data_append]
    rw [show ("```" : String).data = ['`', '`', '`'] from rfl]
    rw [show List.drop 3 (['`', '`', '`'] ++ lang.data) = lang.data from rfl]
    rw [mk_data]
    exact hls
  rw [mdFromLines_code _ (c :: "```" :: T) hne h1 h2, htake, hdrop, hjoin, hlang]

theorem goodBlockB_core (b : NBlock) (hg : goodBlockB b = true) :
    b.rich_text.all plainRun = true ∧ pyStrip (contentOf b) = contentOf b ∧
    contentOf b ≠ "" ∧ Char.ofNat 10 ∉ (contentOf b).data ∧
    pyStrip ("block_id: " ++ b.id) = "block_id: " ++ b.id ∧
    Char.ofNat 10 ∉ b.id.data := by
  unfold goodBlockB at hg
  simp only [Bool.and_eq_true, decide_eq_true_eq] at hg
  exact ⟨hg.1.1.1.1.1.1, hg.1.1.1.1.1.2, hg.1.1.1.1.2, hg.1.1.1.2, hg.1.1.2, hg.1.2⟩

theorem good_kind_not_other (b : NBlock) (hg : goodBlockB b = true) :
    (match b.kind with | .other _ => false | _ => true) = true := by
  unfold goodBlockB at hg
  simp only [Bool.and_eq_true] at hg
  have hk := hg.2
  cases hkv : b.kind <;> try rfl
  rw [hkv] at hk
  simp at hk

theorem renderedB_of_good (b : NBlock) (hg : goodBlockB b = true) : renderedB b = true := by
  obtain ⟨-, hcs, hcne, -, -, -⟩ := goodBlockB_core b hg
  unfold renderedB
  rw [good_kind_not_other b hg, Bool.true_and, hcs]
  simp [hcne]

theorem extractRichText_plain (rt : List RichTextObj) (h : rt.all plainRun = true) :
    extractRichText rt = concatTexts rt := by
  induction rt with
  | nil => rfl
  | cons t r ih =>
    simp only [List.all_cons, Bool.and_eq_true] at h
    obtain ⟨ht, hr⟩ := h
    unfold plainRun at ht
    simp only [Bool.and_eq_true, Bool.not_eq_true', beq_iff_eq] at ht
    obtain ⟨⟨⟨⟨hb, hi⟩, hs⟩, hc⟩, hh⟩ := ht
    show fmtRichTextObj t ++ extractRichText r = t.plain_text ++ concatTexts r
    rw [ih hr]
    unfold fmtRichTextObj
    simp [hb, hi, hs, hc, hh]

theorem contentOf_eq_plainText (b : NBlock) (hall : b.rich_text.all plainRun = true) :
    contentOf b = plainTextOf b := extractRichText_plain b.rich_text hall

theorem hdrLines_head? (b : NBlock) (hg : goodBlockB b = true) :
    (hdrLines b).head? = some ("block_id: " ++ b.id) := by
  have hk := good_kind_not_other b hg
  unfold hdrLines
  cases hkv : b.kind <;> try rfl
  rw [hkv] at hk
  simp at hk

theorem hdrLines_ne_nil (b : NBlock) (hg : goodBlockB b = true) : hdrLines b ≠ [] := by
  intro e
  have h := hdrLines_head? b hg
  rw [e] at h
  simp at h

theorem hdrLines_last (b : NBlock) (hg : goodBlockB b = true) :
    ∃ ll d, (hdrLines b).getLast? = some ll ∧ ll.data.getLast? = some d ∧
      isPySpace d = false := by
  obtain ⟨-, hcs, hcne, -, -, -⟩ := goodBlockB_core b hg
  obtain ⟨d, hld, hd⟩ := getLast_not_space_of_stripped (contentOf b) hcs hcne
  have hk := good_kind_not_other b hg
  have hpre : ∀ (pre : String),
      (pre ++ contentOf b).data.getLast? = some d := by
    intro pre
    rw [String.data_append, List.getLast?_append, hld]
    rfl
  cases hkv : b.kind with
  | paragraph => exact ⟨contentOf b, d, by simp [hdrLines, hkv], hld, hd⟩
  | heading n =>
    exact ⟨hashes n ++ " " ++ contentOf b, d, by simp [hdrLines, hkv], hpre _, hd⟩
  | bulleted => exact ⟨"- " ++ contentOf b, d, by simp [hdrLines, hkv], hpre _, hd⟩
  | numbered => exact ⟨"1. " ++ contentOf b, d, by simp [hdrLines, hkv], hpre _, hd⟩
  | quote => exact ⟨"> " ++ contentOf b, d, by simp [hdrLines, hkv], hpre _, hd⟩
  | code => exact ⟨"```", '`', by simp [hdrLines, hkv], rfl, rfl⟩
  | other name =>
    rw [hkv] at hk
    simp at hk

theorem hdrLines_nl_free (b : NBlock) (hg : goodBlockB b = true) :
    ∀ l ∈ hdrLines b, Char.ofNat 10 ∉ l.data := by
  obtain ⟨-, -, -, hcnl, -, hidnl⟩ := goodBlockB_core b hg
  have hmarker : Char.ofNat 10 ∉ ("block_id: " ++ b.id).data := by
    rw [String.data_append]
    intro hm
    rcases List.mem_append.mp hm with h | h
    · exact absurd h (by decide)
    · exact hidnl h
  have hpre : ∀ (pre : String), Char.ofNat 10 ∉ pre.data →
      Char.ofNat 10 ∉ (pre ++ contentOf b).data := by
    intro pre hp hm
    rw [String.data_append] at hm
    rcases List.mem_append.mp hm with h | h
    · exact hp h
    · exact hcnl h
  intro l hl
  cases hkv : b.kind with
  | paragraph =>
    rw [show hdrLines b = ["block_id: " ++ b.id, contentOf b] from by
      rw [hdrLines, hkv]] at hl
    simp only [List.mem_cons, List.mem_singleton, List.not_mem_nil, or_false] at hl
    rcases hl with rfl | rfl
    · exact hmarker
    · exact hcnl
  | heading n =>
    rw [show hdrLines b = ["block_id: " ++ b.id, hashes n ++ " " ++ contentOf b] from by
      rw [hdrLines, hkv]] at hl
    simp only [List.mem_cons, List.mem_singleton, List.not_mem_nil, or_false] at hl
    rcases hl with rfl | rfl
    · exact hmarker
    · apply hpre
      intro hm
      rw [String.data_append] at hm
      rcases List.mem_append.mp hm with h | h
      · have h2 : Char.ofNat 10 ∈ List.replicate n '#' := by
          rw [show (hashes n).data = List.replicate n '#' from rfl] at h
          exact h
        exact absurd (List.eq_of_mem_replicate h2) (by decide)
      · exact absurd h (by decide)
  | bulleted =>
    rw [show hdrLines b = ["block_id: " ++ b.id, "- " ++ contentOf b] from by
      rw [hdrLines, hkv]] at hl
    simp only [List.mem_cons, List.mem_singleton, List.not_mem_nil, or_false] at hl
    rcases hl with rfl | rfl
    · exact hmarker
    · exact hpre _ (by decide)
  | numbered =>
    rw [show hdrLines b = ["block_id: " ++ b.id, "1. " ++ contentOf b] from by
      rw [hdrLines, hkv]] at hl
    simp only [List.mem_cons, List.mem_singleton, List.not_mem_nil, or_false] at hl
    rcases hl with rfl | rfl
    · exact hmarker
    · exact hpre _ (by decide)
  | quote =>
    rw [show hdrLines b = ["block_id: " ++ b.id, "> " ++ contentOf b] from by
      rw [hdrLines, hkv]] at hl
    simp only [List.mem_cons, List.mem_singleton, List.not_mem_nil, or_false] at hl
    rcases hl with rfl | rfl
    · exact hmarker
    · exact hpre _ (by decide)
  | code =>
    have hlang : Char.ofNat 10 ∉ b.language.data := by
      unfold goodBlockB at hg
      simp only [Bool.and_eq_true] at hg
      have hx := hg.2
      rw [hkv] at hx
      simp only [Bool.and_eq_true, decide_eq_true_eq] at hx
      exact hx.1.2
    rw [show hdrLines b =
        ["block_id: " ++ b.id, "```" ++ b.language, contentOf b, "```"] from by
      rw [hdrLines, hkv]] at hl
    simp only [List.mem_cons, List.mem_singleton, List.not_mem_nil, or_false] at hl
    rcases hl with rfl | rfl | rfl | rfl
    · exact hmarker
    · intro hm
      rw [String.data_append] at hm
      rcases List.mem_append.mp hm with h | h
      · exact absurd h (by decide)
      · exact hlang h
    · exact hcnl
    · exact (by decide)
  | other name =>
    have hk := good_kind_not_other b hg
    rw [hkv] at hk
    simp at hk

theorem mdFromLines_sep (T : List String) : mdFromLines ("" :: T) = mdFromLines T :=
  mdFromLines_blank "" T rfl

theorem parse_hdr (b : NBlock) (T : List String) (hg : goodBlockB b = true) :
    mdFromLines (hdrLines b ++ T) = outBlocksOf b ++ mdFromLines T := by
  obtain ⟨hall, hcs, hcne, hcnl, hid, hidnl⟩ := goodBlockB_core b hg
  have hkind : (match b.kind with
      | BKind.paragraph =>
        !(pyStarts (contentOf b) "#") && !(pyStarts (contentOf b) "```") &&
        !(pyStarts (contentOf b) "- ") && !(isNumberedLine (contentOf b)) &&
        !(pyStarts (contentOf b) "> ")
      | BKind.heading n => decide (1 ≤ n) && decide ((contentOf b).data.head? ≠ some '#')
      | BKind.bulleted => true
      | BKind.numbered => true
      | BKind.quote => true
      | BKind.code =>
        decide (pyStrip b.language = b.language) &&
        decide (Char.ofNat 10 ∉ b.language.data) && !(pyStarts (contentOf b) "```")
      | BKind.other _ => false) = true := by
    unfold goodBlockB at hg
    simp only [Bool.and_eq_true] at hg
    exact hg.2
  cases hkv : b.kind with
  | paragraph =>
    rw [hkv] at hkind
    simp only [Bool.and_eq_true, Bool.not_eq_true'] at hkind
    obtain ⟨⟨⟨⟨h1, h2⟩, h3⟩, h4⟩, h5⟩ := hkind
    rw [show hdrLines b = ["block_id: " ++ b.id, contentOf b] from by rw [hdrLines, hkv]]
    rw [show outBlocksOf b =
        [⟨.paragraph, "block_id: " ++ b.id, ""⟩, ⟨.paragraph, contentOf b, ""⟩] from by
      rw [outBlocksOf, hkv]
      rfl]
    show mdFromLines (("block_id: " ++ b.id) :: contentOf b :: T) = _
    rw [parse_marker_line b.id _ hid, parse_paragraph_line _ _ hcs hcne h1 h2 h3 h4 h5]
    rfl
  | heading n =>
    rw [hkv] at hkind
    simp only [Bool.and_eq_true, decide_eq_true_eq] at hkind
    obtain ⟨hn, hhash⟩ := hkind
    rw [show hdrLines b = ["block_id: " ++ b.id, hashes n ++ " " ++ contentOf b] from by
      rw [hdrLines, hkv]]
    rw [show outBlocksOf b =
        [⟨.paragraph, "block_id: " ++ b.id, ""⟩, ⟨.heading n, contentOf b, ""⟩] from by
      rw [outBlocksOf, hkv]
      rfl]
    show mdFromLines (("block_id: " ++ b.id) :: (hashes n ++ " " ++ contentOf b) :: T) = _
    rw [parse_marker_line b.id _ hid, parse_heading_line n _ _ hn hcs hcne hhash]
    rfl
  | bulleted =>
    rw [show hdrLines b = ["block_id: " ++ b.id, "- " ++ contentOf b] from by
      rw [hdrLines, hkv]]
    rw [show outBlocksOf b =
        [⟨.paragraph, "block_id: " ++ b.id, ""⟩, ⟨.bulleted, contentOf b, ""⟩] from by
      rw [outBlocksOf, hkv]
      rfl]
    show mdFromLines (("block_id: " ++ b.id) :: ("- " ++ contentOf b) :: T) = _
    rw [parse_marker_line b.id _ hid, parse_bulleted_line _ _ hcs hcne]
    rfl
  | numbered =>
    rw [show hdrLines b = ["block_id: " ++ b.id, "1. " ++ contentOf b] from by
      rw [hdrLines, hkv]]
    rw [show outBlocksOf b =
        [⟨.paragraph, "block_id: " ++ b.id, ""⟩, ⟨.numbered, contentOf b, ""⟩] from by
      rw [outBlocksOf, hkv]
      rfl]
    show mdFromLines (("block_id: " ++ b.id) :: ("1. " ++ contentOf b) :: T) = _
    rw [parse_marker_line b.id _ hid, parse_numbered_line _ _ hcs hcne]
    rfl
  | quote =>
    rw [show hdrLines b = ["block_id: " ++ b.id, "> " ++ contentOf b] from by
      rw [hdrLines, hkv]]
    rw [show outBlocksOf b =
        [⟨.paragraph, "block_id: " ++ b.id, ""⟩, ⟨.quote, contentOf b, ""⟩] from by
      rw [outBlocksOf, hkv]
      rfl]
    show mdFromLines (("block_id: " ++ b.id) :: ("> " ++ contentOf b) :: T) = _
    rw [parse_marker_line b.id _ hid, parse_quote_line _ _ hcs hcne]
    rfl
  | code =>
    rw [hkv] at hkind
    simp only [Bool.and_eq_true, decide_eq_true_eq, Bool.not_eq_true'] at hkind
    obtain ⟨⟨hls, hlnl⟩, hcf⟩ := hkind
    rw [show hdrLines b =
        ["block_id: " ++ b.id, "```" ++ b.language, contentOf b, "```"] from by
      rw [hdrLines, hkv]]
    rw [show outBlocksOf b =
        [⟨.paragraph, "block_id: " ++ b.id, ""⟩, ⟨.code, contentOf b, b.language⟩] from by
      rw [outBlocksOf, hkv]
      rfl]
    show mdFromLines
        (("block_id: " ++ b.id) :: ("```" ++ b.language) :: contentOf b :: "```" :: T) = _
    rw [parse_marker_line b.id _ hid, parse_code_lines b.language _ _ hls hcs hcne hcf]
    rfl
  | other name =>
    rw [hkv] at hkind
    simp at hkind

theorem pureLines_cons_good (b : NBlock) (bs : List NBlock) (hg : goodBlockB b = true) :
    pureLines (b :: bs) = hdrLines b ++ [""] ++ pureLines bs := by
  unfold pureLines
  rw [if_pos (renderedB_of_good b hg)]
  cases bs <;> rfl

theorem parse_block_seq (blocks : List NBlock) (T : List String)
    (hg : ∀ b ∈ blocks, goodBlockB b = true) :
    mdFromLines (pureLines blocks ++ T) =
      blocks.flatMap outBlocksOf ++ mdFromLines T := by
  induction blocks generalizing T with
  | nil => simp [pureLines]
  | cons b bs ih =>
    have hgb := hg b (List.mem_cons_self ..)
    rw [pureLines_cons_good b bs hgb]
    rw [show (hdrLines b ++ [""] ++ pureLines bs) ++ T =
        hdrLines b ++ ("" :: (pureLines bs ++ T)) from by simp]
    rw [parse_hdr b _ hgb, mdFromLines_sep, ih _ (fun q hq => hg q (List.mem_cons_of_mem _ hq))]
    simp

theorem pureLines_append (xs ys : List NBlock) :
    pureLines (xs ++ ys) = pureLines xs ++ pureLines ys := by
  induction xs with
  | nil => rfl
  | cons b bs ih =>
    show (if renderedB b = true then hdrLines b ++ [""] else []) ++ pureLines (bs ++ ys) = _
    rw [ih]
    simp [pureLines, List.append_assoc]

theorem pureLines_nl_free (blocks : List NBlock) (hg : ∀ b ∈ blocks, goodBlockB b = true) :
    ∀ l ∈ pureLines blocks, Char.ofNat 10 ∉ l.data := by
  induction blocks with
  | nil =>
    intro l hl
    simp [pureLines] at hl
  | cons b bs ih =>
    intro l hl
    rw [pureLines_cons_good b bs (hg b (List.mem_cons_self ..))] at hl
    rcases List.mem_append.mp hl with h | h
    · rcases List.mem_append.mp h with h2 | h2
      · exact hdrLines_nl_free b (hg b (List.mem_cons_self ..)) l h2
      · simp at h2
        subst h2
        simp
    · exact ih (fun q hq => hg q (List.mem_cons_of_mem _ hq)) l h

theorem firstLine_marker (bs : List NBlock) (bl : NBlock)
    (hgbs : ∀ b ∈ bs, goodBlockB b = true) (hgbl : goodBlockB bl = true) :
    ∃ x, (pureLines bs ++ hdrLines bl).head? = some ("block_id: " ++ x) := by
  cases bs with
  | nil => exact ⟨bl.id, by simpa [pureLines] using hdrLines_head? bl hgbl⟩
  | cons b0 rest =>
    have hg0 := hgbs b0 (List.mem_cons_self ..)
    refine ⟨b0.id, ?_⟩
    rw [pureLines_cons_good b0 rest hg0]
    rw [List.append_assoc, List.append_assoc]
    rw [List.head?_append_of_ne_nil _ (hdrLines_ne_nil b0 hg0)]
    exact hdrLines_head? b0 hg0

theorem toPairs_outBlocks (blocks : List NBlock) (hg : ∀ b ∈ blocks, goodBlockB b = true) :
    toPairs (blocks.flatMap outBlocksOf) =
      blocks.flatMap (fun b =>
        [(BKind.paragraph, "block_id: " ++ b.id), (b.kind, plainTextOf b)]) := by
  induction blocks with
  | nil => rfl
  | cons b bs ih =>
    have hall := (goodBlockB_core b (hg b (List.mem_cons_self ..))).1
    rw [List.flatMap_cons, List.flatMap_cons]
    unfold toPairs
    rw [List.map_append]
    have h1 : (outBlocksOf b).map (fun o => (o.kind, o.content)) =
        [(BKind.paragraph, "block_id: " ++ b.id), (b.kind, plainTextOf b)] := by
      unfold outBlocksOf
      simp [contentOf_eq_plainText b hall]
    rw [h1]
    have h2 := ih (fun q hq => hg q (List.mem_cons_of_mem _ hq))
    unfold toPairs at h2
    rw [h2]

/-- C2 (corrected).  For a sequence of supported elements with non-empty,
unstyled, single-line, already-stripped inline text that does not begin
with another kind's line marker (and well-formed ids and language tags),
render-then-parse reproduces each element's (kind, plain-text) pair in
order, but interleaved with one extra paragraph per element holding its
id-marker line: identifiers are not reconstructed, they reappear as
ordinary paragraph text. -/
theorem c2_round_trip (blocks : List NBlock) (hg : ∀ b ∈ blocks, goodBlockB b = true) :
    toPairs (markdownToNotion (renderMarkdown blocks)) =
      blocks.flatMap (fun b =>
        [(BKind.paragraph, "block_id: " ++ b.id), (b.kind, plainTextOf b)]) := by
  rcases List.eq_nil_or_concat blocks with rfl | ⟨bs, bl, hbl⟩
  · rfl
  · rw [List.concat_eq_append] at hbl
    subst hbl
    have hgbl : goodBlockB bl = true := hg bl (by simp)
    have hgbs : ∀ b ∈ bs, goodBlockB b = true := fun b hb => hg b (by simp [hb])
    have hlines : pureLines (bs ++ [bl]) = (pureLines bs ++ hdrLines bl) ++ [""] := by
      rw [pureLines_append, pureLines_cons_good bl [] hgbl]
      show pureLines bs ++ (hdrLines bl ++ [""] ++ pureLines []) = _
      simp [pureLines]
    have hAne : pureLines bs ++ hdrLines bl ≠ [] := by
      intro e
      rcases List.append_eq_nil.mp e with ⟨-, e2⟩
      exact hdrLines_ne_nil bl hgbl e2
    obtain ⟨x, hhl0⟩ := firstLine_marker bs bl hgbs hgbl
    have hheadc : (joinNl (pureLines bs ++ hdrLines bl)).data.head? = some 'b' := by
      cases hAcase : pureLines bs ++ hdrLines bl with
      | nil => exact absurd hAcase hAne
      | cons a rest =>
        rw [hAcase] at hhl0
        simp at hhl0
        subst hhl0
        exact joinNl_head? _ rest 'b' (head?_append_str _ _ _ rfl)
    obtain ⟨ll, d, hll, hld, hd⟩ := hdrLines_last bl hgbl
    have hlastc : (joinNl (pureLines bs ++ hdrLines bl)).data.getLast? = some d := by
      apply joinNl_getLast? _ ll d ?_ hld
      rw [List.getLast?_append, hll]
      rfl
    have hstrip : pyStrip (joinNl ((pureLines bs ++ hdrLines bl) ++ [""])) =
        joinNl (pureLines bs ++ hdrLines bl) := by
      rw [joinNl_concat_empty _ hAne]
      exact pyStrip_append_newline _ 'b' d hheadc rfl hlastc hd
    have hnl : ∀ l ∈ pureLines bs ++ hdrLines bl, Char.ofNat 10 ∉ l.data := by
      intro l hl
      rcases List.mem_append.mp hl with h | h
      · exact pureLines_nl_free bs hgbs l h
      · exact hdrLines_nl_free bl hgbl l h
    have hsplit : splitNl (joinNl (pureLines bs ++ hdrLines bl)) =
        pureLines bs ++ hdrLines bl := splitNl_joinNl _ hAne hnl
    show toPairs (mdFromLines (splitNl (pyStrip (joinNl (pureLines (bs ++ [bl])))))) = _
    rw [hlines, hstrip, hsplit]
    rw [parse_block_seq bs (hdrLines bl) hgbs]
    have h2 : mdFromLines (hdrLines bl) = outBlocksOf bl := by
      have h3 := parse_hdr bl [] hgbl
      rw [List.append_nil] at h3
      rw [h3, mdFromLines_nil, List.append_nil]
    rw [h2]
    rw [show bs.flatMap outBlocksOf ++ outBlocksOf bl = (bs ++ [bl]).flatMap outBlocksOf from by
      simp]
    exact toPairs_outBlocks (bs ++ [bl]) hg

/-- C2 witness: one block of each supported kind round-trips to the
predicted interleaved pair list. -/
theorem c2_witness :
    toPairs (markdownToNotion (renderMarkdown
      [{ id := "a1", kind := .heading 2, rich_text := [plainSpan "Title"] },
       { id := "a2", kind := .paragraph, rich_text := [plainSpan "hello world"] },
       { id := "a3", kind := .bulleted, rich_text := [plainSpan "item"] },
       { id := "a4", kind := .numbered, rich_text := [plainSpan "first"] },
       { id := "a5", kind := .code, rich_text := [plainSpan "print(1)"], language := "python" },
       { id := "a6", kind := .quote, rich_text := [plainSpan "wise"] }])) =
      [(BKind.paragraph, "block_id: a1"), (.heading 2, "Title"),
       (.paragraph, "block_id: a2"), (.paragraph, "hello world"),
       (.paragraph, "block_id: a3"), (.bulleted, "item"),
       (.paragraph, "block_id: a4"), (.numbered, "first"),
       (.paragraph, "block_id: a5"), (.code, "print(1)"),
       (.paragraph, "block_id: a6"), (.quote, "wise")] := by
  have h := c2_round_trip
    [{ id := "a1", kind := .heading 2, rich_text := [plainSpan "Title"] },
     { id := "a2", kind := .paragraph, rich_text := [plainSpan "hello world"] },
     { id := "a3", kind := .bulleted, rich_text := [plainSpan "item"] },
     { id := "a4", kind := .numbered, rich_text := [plainSpan "first"] },
     { id := "a5", kind := .code, rich_text := [plainSpan "print(1)"], language := "python" },
     { id := "a6", kind := .quote, rich_text := [plainSpan "wise"] }] (by decide)
  rw [h]
  decide

theorem marker_scan_self (id : String) :
    blockIdMarkers [("block_id: " ++ id)] = [id] ∧
    commentIdMarkers [("block_id: " ++ id)] = [] := by
  have h1 : pyStarts ("block_id: " ++ id) "block_id: " = true := pyStarts_append_self _ _
  have h2 : pyStarts ("block_id: " ++ id) "comment block id: " = false :=
    pyStarts_false_head _ _ 'b' 'c' (head?_append_str _ _ _ rfl) rfl rfl
  have hdrop : String.mk (("block_id: " ++ id).data.drop 10) = id := by
    rw [String.data_append]
    rw [show (10 : Nat) = ("block_id: " : String).data.length from rfl, List.drop_left]
  constructor
  · simp [blockIdMarkers, List.filterMap_cons, h1, hdrop]
  · simp [commentIdMarkers, List.filterMap_cons, h2]

theorem comment_marker_scan (cid : String) :
    blockIdMarkers [("comment block id: " ++ cid)] = [] ∧
    commentIdMarkers [("comment block id: " ++ cid)] = [cid] := by
  have h1 : pyStarts ("comment block id: " ++ cid) "block_id: " = false :=
    pyStarts_false_head _ _ 'c' 'b' (head?_append_str _ _ _ rfl) rfl rfl
  have h2 : pyStarts ("comment block id: " ++ cid) "comment block id: " = true :=
    pyStarts_append_self _ _
  have hdrop : String.mk (("comment block id: " ++ cid).data.drop 18) = cid := by
    rw [String.data_append]
    rw [show (18 : Nat) = ("comment block id: " : String).data.length from rfl, List.drop_left]
  constructor
  · simp [blockIdMarkers, List.filterMap_cons, h1]
  · simp [commentIdMarkers, List.filterMap_cons, h2, hdrop]

theorem scan_not_marker (s : String) (h1 : pyStarts s "block_id: " = false)
    (h2 : pyStarts s "comment block id: " = false) :
    blockIdMarkers [s] = [] ∧ commentIdMarkers [s] = [] := by
  constructor
  · simp [blockIdMarkers, List.filterMap_cons, h1]
  · simp [commentIdMarkers, List.filterMap_cons, h2]

theorem line_scan_of_head (s : String) (c0 : Char) (h : s.data.head? = some c0)
    (h1 : ('b' == c0) = false) (h2 : ('c' == c0) = false) :
    pyStarts s "block_id: " = false ∧ pyStarts s "comment block id: " = false :=
  ⟨pyStarts_false_head s _ c0 'b' h rfl h1, pyStarts_false_head s _ c0 'c' h rfl h2⟩

theorem heading_line_scan (n : Nat) (c : String) :
    pyStarts (hashes n ++ " " ++ c) "block_id: " = false ∧
    pyStarts (hashes n ++ " " ++ c) "comment block id: " = false := by
  cases n with
  | zero =>
    exact line_scan_of_head _ ' ' (head?_append_str _ _ _ rfl) rfl rfl
  | succ m =>
    have hpre : (hashes (m + 1) ++ " ").data.head? = some '#' := by
      apply head?_append_str
      rw [show (hashes (m + 1)).data = '#' :: List.replicate m '#' from rfl]
      rfl
    exact line_scan_of_head _ '#' (head?_append_str _ _ _ hpre) rfl rfl

theorem blockIdMarkers_append (L1 L2 : List String) :
    blockIdMarkers (L1 ++ L2) = blockIdMarkers L1 ++ blockIdMarkers L2 :=
  List.filterMap_append L1 L2 _

theorem commentIdMarkers_append (L1 L2 : List String) :
    commentIdMarkers (L1 ++ L2) = commentIdMarkers L1 ++ commentIdMarkers L2 :=
  List.filterMap_append L1 L2 _

theorem empty_line_scan :
    blockIdMarkers [""] = [] ∧ commentIdMarkers [""] = [] :=
  scan_not_marker "" (pyStarts_empty_false _ 'b' rfl) (pyStarts_empty_false _ 'c' rfl)

theorem hdr_markers (b : NBlock) (hr : renderedB b = true)
    (hc1 : pyStarts (contentOf b) "block_id: " = false)
    (hc2 : pyStarts (contentOf b) "comment block id: " = false) :
    blockIdMarkers (hdrLines b) = [b.id] ∧ commentIdMarkers (hdrLines b) = [] := by
  have hko : (match b.kind with | BKind.other _ => false | _ => true) = true := by
    unfold renderedB at hr
    simp only [Bool.and_eq_true] at hr
    exact hr.1
  cases hkv : b.kind with
  | paragraph =>
    rw [show hdrLines b = ["block_id: " ++ b.id, contentOf b] from by rw [hdrLines, hkv]]
    rw [show (["block_id: " ++ b.id, contentOf b] : List String) =
      ["block_id: " ++ b.id] ++ [contentOf b] from rfl]
    rw [blockIdMarkers_append, commentIdMarkers_append]
    rw [(marker_scan_self b.id).1, (marker_scan_self b.id).2,
      (scan_not_marker _ hc1 hc2).1, (scan_not_marker _ hc1 hc2).2]
    exact ⟨rfl, rfl⟩
  | heading n =>
    rw [show hdrLines b = ["block_id: " ++ b.id, hashes n ++ " " ++ contentOf b] from by
      rw [hdrLines, hkv]]
    rw [show (["block_id: " ++ b.id, hashes n ++ " " ++ contentOf b] : List String) =
      ["block_id: " ++ b.id] ++ [hashes n ++ " " ++ contentOf b] from rfl]
    rw [blockIdMarkers_append, commentIdMarkers_append]
    obtain ⟨hs1, hs2⟩ := heading_line_scan n (contentOf b)
    rw [(marker_scan_self b.id).1, (marker_scan_self b.id).2,
      (scan_not_marker _ hs1 hs2).1, (scan_not_marker _ hs1 hs2).2]
    exact ⟨rfl, rfl⟩
  | bulleted =>
    rw [show hdrLines b = ["block_id: " ++ b.id, "- " ++ contentOf b] from by
      rw [hdrLines, hkv]]
    rw [show (["block_id: " ++ b.id, "- " ++ contentOf b] : List String) =
      ["block_id: " ++ b.id] ++ ["- " ++ contentOf b] from rfl]
    rw [blockIdMarkers_append, commentIdMarkers_append]
    obtain ⟨hs1, hs2⟩ := line_scan_of_head ("- " ++ contentOf b) '-'
      (head?_append_str _ _ _ rfl) rfl rfl
    rw [(marker_scan_self b.id).1, (marker_scan_self b.id).2,
      (scan_not_marker _ hs1 hs2).1, (scan_not_marker _ hs1 hs2).2]
    exact ⟨rfl, rfl⟩
  | numbered =>
    rw [show hdrLines b = ["block_id: " ++ b.id, "1. " ++ contentOf b] from by
      rw [hdrLines, hkv]]
    rw [show (["block_id: " ++ b.id, "1. " ++ contentOf b] : List String) =
      ["block_id: " ++ b.id] ++ ["1. " ++ contentOf b] from rfl]
    rw [blockIdMarkers_append, commentIdMarkers_append]
    obtain ⟨hs1, hs2⟩ := line_scan_of_head ("1. " ++ contentOf b) '1'
      (head?_append_str _ _ _ rfl) rfl rfl
    rw [(marker_scan_self b.id).1, (marker_scan_self b.id).2,
      (scan_not_marker _ hs1 hs2).1, (scan_not_marker _ hs1 hs2).2]
    exact ⟨rfl, rfl⟩
  | quote =>
    rw [show hdrLines b = ["block_id: " ++ b.id, "> " ++ contentOf b] from by
      rw [hdrLines, hkv]]
    rw [show (["block_id: " ++ b.id, "> " ++ contentOf b] : List String) =
      ["block_id: " ++ b.id] ++ ["> " ++ contentOf b] from rfl]
    rw [blockIdMarkers_append, commentIdMarkers_append]
    obtain ⟨hs1, hs2⟩ := line_scan_of_head ("> " ++ contentOf b) '>'
      (head?_append_str _ _ _ rfl) rfl rfl
    rw [(marker_scan_self b.id).1, (marker_scan_self b.id).2,
      (scan_not_marker _ hs1 hs2).1, (scan_not_marker _ hs1 hs2).2]
    exact ⟨rfl, rfl⟩
  | code =>
    rw [show hdrLines b =
        ["block_id: " ++ b.id, "```" ++ b.language, contentOf b, "```"] from by
      rw [hdrLines, hkv]]
    rw [show (["block_id: " ++ b.id, "```" ++ b.language, contentOf b, "```"] : List String) =
      ["block_id: " ++ b.id] ++ ["```" ++ b.language] ++ [contentOf b] ++ ["```"] from rfl]
    rw [blockIdMarkers_append, blockIdMarkers_append, blockIdMarkers_append,
      commentIdMarkers_append, commentIdMarkers_append, commentIdMarkers_append]
    obtain ⟨hf1, hf2⟩ := line_scan_of_head ("```" ++ b.language) '`'
      (head?_append_str _ _ _ rfl) rfl rfl
    obtain ⟨hg1, hg2⟩ := line_scan_of_head "```" '`' rfl rfl rfl
    rw [(marker_scan_self b.id).1, (marker_scan_self b.id).2,
      (scan_not_marker _ hf1 hf2).1, (scan_not_marker _ hf1 hf2).2,
      (scan_not_marker _ hc1 hc2).1, (scan_not_marker _ hc1 hc2).2,
      (scan_not_marker _ hg1 hg2).1, (scan_not_marker _ hg1 hg2).2]
    exact ⟨rfl, rfl⟩
  | other name =>
    rw [hkv] at hko
    simp at hko

theorem blockIdMarkers_cons_not (s : String) (L : List String)
    (h : pyStarts s "block_id: " = false) :
    blockIdMarkers (s :: L) = blockIdMarkers L := by
  simp [blockIdMarkers, List.filterMap_cons, h]

theorem blockIdMarkers_cons_marker (id : String) (L : List String) :
    blockIdMarkers (("block_id: " ++ id) :: L) = id :: blockIdMarkers L := by
  have h1 : pyStarts ("block_id: " ++ id) "block_id: " = true := pyStarts_append_self _ _
  have hdrop : String.mk (("block_id: " ++ id).data.drop 10) = id := by
    rw [String.data_append]
    rw [show (10 : Nat) = ("block_id: " : String).data.length from rfl, List.drop_left]
  simp [blockIdMarkers, List.filterMap_cons, h1, hdrop]

theorem commentIdMarkers_cons_not (s : String) (L : List String)
    (h : pyStarts s "comment block id: " = false) :
    commentIdMarkers (s :: L) = commentIdMarkers L := by
  simp [commentIdMarkers, List.filterMap_cons, h]

theorem commentIdMarkers_cons_marker (cid : String) (L : List String) :
    commentIdMarkers (("comment block id: " ++ cid) :: L) = cid :: commentIdMarkers L := by
  have h2 : pyStarts ("comment block id: " ++ cid) "comment block id: " = true :=
    pyStarts_append_self _ _
  have hdrop : String.mk (("comment block id: " ++ cid).data.drop 18) = cid := by
    rw [String.data_append]
    rw [show (18 : Nat) = ("comment block id: " : String).data.length from rfl, List.drop_left]
  simp [commentIdMarkers, List.filterMap_cons, h2, hdrop]

theorem header_named_head (nm ep uid t : String) :
    ("**Comment by \"" ++ nm ++ "\"" ++ ep ++ " (" ++ uid ++ ") at " ++ t ++
      ":**").data.head? = some '*' := by
  repeat (first | rfl | apply head?_append_str)

theorem header_unknown_head (t : String) :
    ("**Comment by Unknown User at " ++ t ++ ":**").data.head? = some '*' := by
  repeat (first | rfl | apply head?_append_str)

theorem markers_commentLines (uresp : String → Except PyError UserData)
    (cs : List NComment) (cache : UserCache)
    (hcs : ∀ c ∈ cs, pyStarts (extractRichText c.rich_text) "block_id: " = false ∧
      pyStarts (extractRichText c.rich_text) "comment block id: " = false) :
    blockIdMarkers (commentLines uresp cs cache).1 = [] ∧
    commentIdMarkers (commentLines uresp cs cache).1 = cs.map (·.id) := by
  induction cs generalizing cache with
  | nil => exact ⟨rfl, rfl⟩
  | cons c rest ih =>
    obtain ⟨hc1, hc2⟩ := hcs c (List.mem_cons_self ..)
    have hcm1 : pyStarts ("comment block id: " ++ c.id) "block_id: " = false :=
      pyStarts_false_head _ _ 'c' 'b' (head?_append_str _ _ _ rfl) rfl rfl
    by_cases hu : c.created_by ≠ ""
    · obtain ⟨ih1, ih2⟩ :=
        ih (getUser (uresp c.created_by) c.created_by cache).2
          (fun q hq => hcs q (List.mem_cons_of_mem _ hq))
      simp only [commentLines, if_pos hu]
      constructor
      · rw [List.cons_append, List.cons_append, List.cons_append, List.nil_append]
        rw [blockIdMarkers_cons_not _ _ hcm1]
        rw [blockIdMarkers_cons_not _ _
          ((line_scan_of_head _ '*' (header_named_head _ _ _ _) rfl rfl).1)]
        rw [blockIdMarkers_cons_not _ _ hc1]
        exact ih1
      · rw [List.cons_append, List.cons_append, List.cons_append, List.nil_append]
        rw [commentIdMarkers_cons_marker]
        rw [commentIdMarkers_cons_not _ _
          ((line_scan_of_head _ '*' (header_named_head _ _ _ _) rfl rfl).2)]
        rw [commentIdMarkers_cons_not _ _ hc2]
        rw [ih2, List.map_cons]
    · obtain ⟨ih1, ih2⟩ := ih cache (fun q hq => hcs q (List.mem_cons_of_mem _ hq))
      simp only [commentLines, if_neg hu]
      constructor
      · rw [List.cons_append, List.cons_append, List.cons_append, List.nil_append]
        rw [blockIdMarkers_cons_not _ _ hcm1]
        rw [blockIdMarkers_cons_not _ _
          ((line_scan_of_head _ '*' (header_unknown_head _) rfl rfl).1)]
        rw [blockIdMarkers_cons_not _ _ hc1]
        exact ih1
      · rw [List.cons_append, List.cons_append, List.cons_append, List.nil_append]
        rw [commentIdMarkers_cons_marker]
        rw [commentIdMarkers_cons_not _ _
          ((line_scan_of_head _ '*' (header_unknown_head _) rfl rfl).2)]
        rw [commentIdMarkers_cons_not _ _ hc2]
        rw [ih2, List.map_cons]

theorem markers_mdLines (cresp : String → List (Except PyError CommentPage))
    (uresp : String → Except PyError UserData) (cmts : String → List NComment)
    (hc : ∀ id, getBlockComments (cresp id) [] = .ok (cmts id))
    (blocks : List NBlock)
    (hcontent : ∀ b ∈ blocks, pyStarts (contentOf b) "block_id: " = false ∧
      pyStarts (contentOf b) "comment block id: " = false)
    (hcmt : ∀ b ∈ blocks, ∀ c ∈ cmts b.id,
      pyStarts (extractRichText c.rich_text) "block_id: " = false ∧
      pyStarts (extractRichText c.rich_text) "comment block id: " = false)
    (cache : UserCache) :
    ∃ L cache2, notionToMarkdownLines cresp uresp blocks cache = .ok (L, cache2) ∧
      blockIdMarkers L = (blocks.filter renderedB).map (·.id) ∧
      commentIdMarkers L =
        (blocks.filter renderedB).flatMap (fun b => (cmts b.id).map (·.id)) := by
  induction blocks generalizing cache with
  | nil => exact ⟨[], cache, rfl, rfl, rfl⟩
  | cons b bs ih =>
    obtain ⟨hb1, hb2⟩ := hcontent b (List.mem_cons_self ..)
    by_cases hr : renderedB b = true
    · obtain ⟨L, c2, hml, hmb, hmc⟩ :=
        ih (fun q hq => hcontent q (List.mem_cons_of_mem _ hq))
          (fun q hq => hcmt q (List.mem_cons_of_mem _ hq))
          ((commentLines uresp (cmts b.id) cache).2)
      refine ⟨hdrLines b ++ (commentLines uresp (cmts b.id) cache).1 ++ [""] ++ L, c2,
        ?_, ?_, ?_⟩
      · show notionToMarkdownLines cresp uresp (b :: bs) cache = _
        simp only [notionToMarkdownLines, hr, if_true]
        rw [hc b.id]
        simp only
        rw [hml]
      · rw [blockIdMarkers_append, blockIdMarkers_append, blockIdMarkers_append]
        rw [(hdr_markers b hr hb1 hb2).1,
          (markers_commentLines uresp (cmts b.id) cache
            (hcmt b (List.mem_cons_self ..))).1,
          empty_line_scan.1, hmb]
        simp [List.filter_cons, hr]
      · rw [commentIdMarkers_append, commentIdMarkers_append, commentIdMarkers_append]
        rw [(hdr_markers b hr hb1 hb2).2,
          (markers_commentLines uresp (cmts b.id) cache
            (hcmt b (List.mem_cons_self ..))).2,
          empty_line_scan.2, hmc]
        simp [List.filter_cons, hr]
    · have hrf : renderedB b = false := Bool.not_eq_true _ ▸ eq_false_of_ne_true hr
      obtain ⟨L, c2, hml, hmb, hmc⟩ :=
        ih (fun q hq => hcontent q (List.mem_cons_of_mem _ hq))
          (fun q hq => hcmt q (List.mem_cons_of_mem _ hq)) cache
      refine ⟨L, c2, ?_, ?_, ?_⟩
      · show notionToMarkdownLines cresp uresp (b :: bs) cache = _
        simp only [notionToMarkdownLines, hrf, Bool.false_eq_true, if_false]
        exact hml
      · rw [hmb]
        simp [List.filter_cons, hrf]
      · rw [hmc]
        simp [List.filter_cons, hrf]

/-- C3 (corrected).  Among the lines `notion_to_markdown` emits, the
element ids announced by id-marker lines are exactly the ids of the
rendered blocks, in order, and the annotation ids announced by
comment-marker lines are exactly the ids of the comments fetched for the
rendered blocks; when those id lists are duplicate-free each rendered id
and each such annotation id therefore appears exactly once.  Skipped
blocks (unrecognized kind or empty inline text, see the counterexample)
contribute no id at all, and block contents or comment texts that
themselves begin with a marker prefix are excluded by hypothesis. -/
theorem c3_id_markers (cresp : String → List (Except PyError CommentPage))
    (uresp : String → Except PyError UserData) (cmts : String → List NComment)
    (hc : ∀ id, getBlockComments (cresp id) [] = .ok (cmts id))
    (blocks : List NBlock)
    (hcontent : ∀ b ∈ blocks, pyStarts (contentOf b) "block_id: " = false ∧
      pyStarts (contentOf b) "comment block id: " = false)
    (hcmt : ∀ b ∈ blocks, ∀ c ∈ cmts b.id,
      pyStarts (extractRichText c.rich_text) "block_id: " = false ∧
      pyStarts (extractRichText c.rich_text) "comment block id: " = false) :
    ∃ L cache2, notionToMarkdownLines cresp uresp blocks [] = .ok (L, cache2) ∧
      blockIdMarkers L = (blocks.filter renderedB).map (·.id) ∧
      commentIdMarkers L =
        (blocks.filter renderedB).flatMap (fun b => (cmts b.id).map (·.id)) ∧
      (((blocks.filter renderedB).map (·.id)).Nodup →
        ∀ b ∈ blocks, renderedB b = true → (blockIdMarkers L).count b.id = 1) ∧
      (((blocks.filter renderedB).flatMap (fun b => (cmts b.id).map (·.id))).Nodup →
        ∀ b ∈ blocks, renderedB b = true → ∀ c ∈ cmts b.id,
          (commentIdMarkers L).count c.id = 1) := by
  obtain ⟨L, c2, h1, h2, h3⟩ := markers_mdLines cresp uresp cmts hc blocks hcontent hcmt []
  refine ⟨L, c2, h1, h2, h3, ?_, ?_⟩
  · intro hnd b hb hr
    rw [h2]
    exact List.count_eq_one_of_mem hnd
      (List.mem_map_of_mem _ (List.mem_filter.mpr ⟨hb, hr⟩))
  · intro hnd b hb hr c hcm
    rw [h3]
    exact List.count_eq_one_of_mem hnd
      (List.mem_flatMap.mpr ⟨b, List.mem_filter.mpr ⟨hb, hr⟩, List.mem_map_of_mem _ hcm⟩)

/-- C3 witness: one rendered paragraph with one comment announces exactly
the element id and the annotation id. -/
theorem c3_witness :
    ∃ L cache2,
      notionToMarkdownLines
        (fun _ => [Except.ok { results := [{ id := "cm1", rich_text := [plainSpan "hi"],
                                             created_by := "u1", created_time := "T" }],
                               has_more := false }])
        (fun _ => .error (.http 404 "nf"))
        [{ id := "abc", kind := .paragraph, rich_text := [plainSpan "hello"] }] [] =
        .ok (L, cache2) ∧
      blockIdMarkers L = ["abc"] ∧ commentIdMarkers L = ["cm1"] := by
  obtain ⟨L, c2, h1, h2, h3, -, -⟩ := c3_id_markers
    (fun _ => [Except.ok { results := [{ id := "cm1", rich_text := [plainSpan "hi"],
                                         created_by := "u1", created_time := "T" }],
                           has_more := false }])
    (fun _ => .error (.http 404 "nf"))
    (fun _ => [{ id := "cm1", rich_text := [plainSpan "hi"],
                 created_by := "u1", created_time := "T" }])
    (fun _ => rfl)
    [{ id := "abc", kind := .paragraph, rich_text := [plainSpan "hello"] }]
    (by decide) (by decide)
  exact ⟨L, c2, h1, h2.trans (by decide), h3.trans (by decide)⟩

/-- C3 counterexample.  A paragraph block with id `abc` and empty inline
text is skipped: the flattened text is the empty string, in which the id
`abc` (present in the source data) does not appear at all. -/
theorem c3_counterexample :
    notionToMarkdown (fun _ => []) (fun _ => .error (.http 404 "x"))
      [{ id := "abc", kind := .paragraph, rich_text := [] }] [] = .ok "" ∧
    isSubstr "abc" "" = false := by
  decide

end NotionAgent
